import Mathlib

/-!
# Verification of the YangtzeSense routing-protocol energy simulator

Shallow embedding of `src/simulation/routingAlgorithms/leach.ts` and
`src/simulation/routingAlgorithms/pegasis.ts`.

Modelling conventions:

* JavaScript numbers are modelled as exact rationals (`ℚ`); the claims under
  study are structural (lengths, skips, reconciliation, monotonicity), for
  which exact arithmetic is the intended reading.
* `calculateDistance` (leach.ts:221, pegasis.ts:259) computes
  `sqrt((Δlat·111)² + (Δlng·111·cos lat)²)`, an irrational-valued function.
  Its value only ever feeds cost multipliers and nearest-neighbour ranking,
  so both simulators are parametrised here by an arbitrary distance function
  `calcDist : Position → Position → ℚ`; theorems that need it assume only
  `0 ≤ calcDist p q`, which the square root satisfies.  Concrete runs use
  `zeroDist`, which agrees with `calculateDistance` whenever all node
  positions coincide (the square root of zero).
* JavaScript `Record<string, number>` objects are modelled as association
  lists with the source's insertion-order semantics: `setA` overwrites the
  first binding of a key or appends a fresh one, so keys stay unique and
  `for (const id in m)` enumeration corresponds to the list order.
* `Math.random()` draws in LEACH are modelled by a `RandomSource` supplying
  one rational draw per (round, node) for head election and one per round
  for the fallback election; pegasis.ts consults no random source, so its
  embedding takes none.
* `WSNNode` fields never read by the simulators (`name`, `batteryLevel`,
  `status`, `lastReading`, `energyUsage`) are omitted.
-/

/-- A geographic position (leach.ts/pegasis.ts `{ lat, lng }`). -/
structure Position where
  lat : ℚ
  lng : ℚ
deriving DecidableEq, Repr

/-- `WSNNode.type` from `src/types/node.ts`. -/
inductive NodeType where
  | sensor
  | base
  | relay
deriving DecidableEq, Repr

/-- The fields of `WSNNode` (src/types/node.ts) read by the simulators. -/
structure WSNNode where
  id : String
  position : Position
  type : NodeType
deriving DecidableEq, Repr

/-! ## Association-list maps (JS `Record<string, V>`) -/

/-- `m[k]` as an option. -/
def lookupA {α : Type} (m : List (String × α)) (k : String) : Option α :=
  match m with
  | [] => none
  | (k0, v0) :: rest => if k0 = k then some v0 else lookupA rest k

/-- `m[k]` with a default (`0` models both `m[k]` on initialised keys and
`(m[k] || 0)`). -/
def getD {α : Type} (m : List (String × α)) (k : String) (d : α) : α :=
  (lookupA m k).getD d

/-- `m[k] = v`: overwrite the first binding of `k`, or append a fresh
binding, preserving JS object insertion order. -/
def setA {α : Type} (m : List (String × α)) (k : String) (v : α) :
    List (String × α) :=
  match m with
  | [] => [(k, v)]
  | (k0, v0) :: rest =>
    if k0 = k then (k, v) :: rest else (k0, v0) :: setA rest k v

/-- `m[k] = (m[k] || 0) + c`. -/
def addA (m : List (String × ℚ)) (k : String) (c : ℚ) : List (String × ℚ) :=
  setA m k (getD m k 0 + c)

/-- `m[k] -= c` (keys are always initialised before use, so the read
defaults to `0` only on unreachable paths). -/
def subA (m : List (String × ℚ)) (k : String) (c : ℚ) : List (String × ℚ) :=
  setA m k (getD m k 0 - c)

/-- `for (const id in m) total += m[id]`. -/
def sumVals (m : List (String × ℚ)) : ℚ :=
  (m.map (fun p => p.2)).sum

theorem lookupA_setA_same {α : Type} (m : List (String × α)) (k : String)
    (v : α) : lookupA (setA m k v) k = some v := by
  induction m with
  | nil => simp [setA, lookupA]
  | cons p rest ih =>
    obtain ⟨k0, v0⟩ := p
    by_cases h : k0 = k
    · simp [setA, h, lookupA]
    · simp [setA, h, lookupA, ih]

theorem lookupA_setA_other {α : Type} (m : List (String × α)) (k k2 : String)
    (v : α) (hne : k ≠ k2) : lookupA (setA m k v) k2 = lookupA m k2 := by
  induction m with
  | nil => simp [setA, lookupA, hne]
  | cons p rest ih =>
    obtain ⟨k0, v0⟩ := p
    by_cases h : k0 = k
    · subst h
      simp [setA, lookupA, hne]
    · simp [setA, h, lookupA, ih]

theorem getD_setA_same {α : Type} (m : List (String × α)) (k : String)
    (v d : α) : getD (setA m k v) k d = v := by
  simp [getD, lookupA_setA_same]

theorem getD_setA_other {α : Type} (m : List (String × α)) (k k2 : String)
    (v d : α) (hne : k ≠ k2) : getD (setA m k v) k2 d = getD m k2 d := by
  simp [getD, lookupA_setA_other m k k2 v hne]

theorem sumVals_setA (m : List (String × ℚ)) (k : String) (v : ℚ) :
    sumVals (setA m k v) = sumVals m - getD m k 0 + v := by
  induction m with
  | nil => simp [setA, sumVals, getD, lookupA]
  | cons p rest ih =>
    obtain ⟨k0, v0⟩ := p
    by_cases h : k0 = k
    · subst h
      simp [setA, sumVals, getD, lookupA]
      ring
    · simp [setA, h, sumVals, getD, lookupA] at *
      rw [ih]
      ring

theorem sumVals_addA (m : List (String × ℚ)) (k : String) (c : ℚ) :
    sumVals (addA m k c) = sumVals m + c := by
  rw [addA, sumVals_setA]
  ring

theorem getD_subA_le (m : List (String × ℚ)) (k id : String) (c : ℚ)
    (hc : 0 ≤ c) : getD (subA m k c) id 0 ≤ getD m id 0 := by
  by_cases h : k = id
  · subst h
    rw [subA, getD_setA_same]
    linarith
  · rw [subA, getD_setA_other m k id _ 0 h]

/-! ## Shared simulator infrastructure -/

/-- `nodes.find(n => n.id === id)` — first node with the given id. -/
def findNode (nodes : List WSNNode) (id : String) : Option WSNNode :=
  nodes.find? (fun n => n.id == id)

/-- `nodes.find(n => n.type === 'base')`. -/
def findBase (nodes : List WSNNode) : Option WSNNode :=
  nodes.find? (fun n => n.type == NodeType.base)

/-- `nodes.forEach(node => { nodeEnergy[node.id] = config.initialEnergy })`. -/
def initEnergy (nodes : List WSNNode) (e : ℚ) : List (String × ℚ) :=
  nodes.foldl (fun m n => setA m n.id e) []

/-- Accumulator for one round's cost phases: the per-round `energyUsage`
record, the live `nodeEnergy` ledger, and `roundDataTransmitted`. -/
structure CostAcc where
  usage : List (String × ℚ)
  energy : List (String × ℚ)
  data : ℚ
deriving DecidableEq, Repr

/-- The `Math.random()` draws consumed by `simulateLEACH`: one per
(round, node id) for head election (leach.ts:80) and one per round for the
fallback head choice (leach.ts:94).  Real draws lie in `[0, 1)`. -/
structure RandomSource where
  electDraw : Nat → String → ℚ
  fallbackDraw : Nat → ℚ

/-- A `RandomSource` whose draws are actually producible by
`Math.random()`, i.e. lie in `[0, 1)`.  Only the fallback draw matters for
the theorems below. -/
def RandomSource.WF (rng : RandomSource) : Prop :=
  ∀ r : Nat, 0 ≤ rng.fallbackDraw r ∧ rng.fallbackDraw r < 1

/-! ## LEACH (src/simulation/routingAlgorithms/leach.ts) -/

/-- `LEACHConfig` (leach.ts:25). -/
structure LEACHConfig where
  rounds : Nat
  probabilityThreshold : ℚ
  initialEnergy : ℚ
  transmitEnergy : ℚ
  receiveEnergy : ℚ
  dataSize : ℚ
deriving DecidableEq, Repr

/-- `LEACHRound` (leach.ts:16). -/
structure LEACHRound where
  roundNumber : Nat
  clusterHeads : List String
  clusterMembers : List (String × List String)
  energyUsage : List (String × ℚ)
  nodesAlive : Nat
  dataTransmitted : ℚ
deriving DecidableEq, Repr

/-- `LEACHSimulationResult.metrics` (leach.ts:8). -/
structure LEACHMetrics where
  energyConsumption : ℚ
  networkLifetime : Nat
  dataDelivered : ℚ
  averageEnergy : ℚ
deriving DecidableEq, Repr

/-- `LEACHSimulationResult` (leach.ts:6). -/
structure LEACHSimulationResult where
  rounds : List LEACHRound
  metrics : LEACHMetrics
deriving DecidableEq, Repr

/-- The mutable locals of `simulateLEACH` threaded through the round loop
(leach.ts:48-53). -/
structure LeachState where
  nodeEnergy : List (String × ℚ)
  rounds : List LEACHRound
  totalEnergyConsumption : ℚ
  dataDelivered : ℚ
  networkDied : Bool
  networkLifetime : Nat
deriving DecidableEq, Repr

/-- Probabilistic head election (leach.ts:73-86): every live non-base node
becomes a head when its draw is below the threshold. -/
def leachElect (rng : RandomSource) (cfg : LEACHConfig) (round : Nat)
    (energy : List (String × ℚ)) (nodes : List WSNNode) :
    List String × List (String × List String) :=
  nodes.foldl
    (fun acc node =>
      if getD energy node.id 0 ≤ 0 then acc
      else if node.type = NodeType.base then acc
      else if rng.electDraw round node.id < cfg.probabilityThreshold then
        (acc.1 ++ [node.id], setA acc.2 node.id [])
      else acc)
    ([], [])

/-- Fallback election (leach.ts:88-100): when no head was elected, pick a
random live non-base node.  `Math.floor(Math.random() * len)` is modelled
as `⌊draw · len⌋`; for draws in `[0, 1)` the index is always in range, and
the (unreachable) out-of-range case elects nobody. -/
def leachFallback (rng : RandomSource) (round : Nat)
    (energy : List (String × ℚ)) (nodes : List WSNNode)
    (hm : List String × List (String × List String)) :
    List String × List (String × List String) :=
  if hm.1 = [] then
    let availableNodes :=
      (nodes.filter
        (fun n => decide (0 < getD energy n.id 0) &&
          decide (n.type ≠ NodeType.base))).map (fun n => n.id)
    if availableNodes.length > 0 then
      let randomIndex : Nat :=
        (Int.floor (rng.fallbackDraw round * availableNodes.length)).toNat
      match availableNodes.get? randomIndex with
      | some selectedHead => ([selectedHead], setA hm.2 selectedHead [])
      | none => hm
    else hm
  else hm

/-- Nearest-head scan (leach.ts:108-121): strict `<` keeps the first head
found at the minimum distance.  JS starts from `minDistance = Infinity`,
`nearestHead = ''`, modelled by `none`; heads missing from the node list
cannot occur (heads are drawn from `nodes`) and are skipped where the
source's non-null assertion would throw. -/
def nearestHead (calcDist : Position → Position → ℚ) (nodes : List WSNNode)
    (node : WSNNode) (heads : List String) : Option String :=
  (heads.foldl
    (fun best headId =>
      match findNode nodes headId with
      | some head =>
        let distance := calcDist node.position head.position
        match best with
        | none => some (distance, headId)
        | some (minDistance, h0) =>
          if distance < minDistance then some (distance, headId)
          else some (minDistance, h0)
      | none => best)
    none).map (fun p => p.2)

/-- Member assignment (leach.ts:103-126): every live, non-head, non-base
node joins its nearest head's member list. -/
def assignMembers (calcDist : Position → Position → ℚ)
    (energy : List (String × ℚ)) (nodes : List WSNNode)
    (heads : List String) (members0 : List (String × List String)) :
    List (String × List String) :=
  nodes.foldl
    (fun members node =>
      if getD energy node.id 0 ≤ 0 then members
      else if node.type = NodeType.base then members
      else if node.id ∈ heads then members
      else
        match nearestHead calcDist nodes node heads with
        | some h => setA members h (getD members h [] ++ [node.id])
        | none => members)
    members0

/-- Member→head transmissions (leach.ts:131-151): each member pays a
distance-scaled transmit cost, its head pays the receive cost, and
`dataSize` bits are counted.  Lookups of member/head nodes cannot fail
(ids come from `nodes`); the unreachable failure is a no-op where the
source's non-null assertion would throw. -/
def memberToHead (calcDist : Position → Position → ℚ) (cfg : LEACHConfig)
    (nodes : List WSNNode) (heads : List String)
    (members : List (String × List String)) (acc0 : CostAcc) : CostAcc :=
  heads.foldl
    (fun accH headId =>
      (getD members headId []).foldl
        (fun acc memberId =>
          match findNode nodes memberId, findNode nodes headId with
          | some member, some head =>
            let distance := calcDist member.position head.position
            let transmitCost :=
              cfg.transmitEnergy * cfg.dataSize * (1 + 1/10 * distance)
            let usage1 := addA acc.usage memberId transmitCost
            let energy1 := subA acc.energy memberId transmitCost
            let receiveCost := cfg.receiveEnergy * cfg.dataSize
            let usage2 := addA usage1 headId receiveCost
            let energy2 := subA energy1 headId receiveCost
            ⟨usage2, energy2, acc.data + cfg.dataSize⟩
          | _, _ => acc)
        accH)
    acc0

/-- One head's aggregation-and-send to the base station (leach.ts:156-170).
When the base station is absent the source's `nodes.find(...)!.position`
access throws a `TypeError`, modelled as `Except.error`.  Note there is no
aliveness check: the head is charged unconditionally. -/
def headToBaseStep (calcDist : Position → Position → ℚ) (cfg : LEACHConfig)
    (nodes : List WSNNode) (baseStation : Option WSNNode)
    (members : List (String × List String)) (acc : CostAcc)
    (headId : String) : Except String CostAcc :=
  match baseStation with
  | none => .error "TypeError: cannot read position of undefined"
  | some bs =>
    match findNode nodes headId with
    | some head =>
      let distance := calcDist head.position bs.position
      let memberCount := (getD members headId []).length
      let aggregatedDataSize :=
        cfg.dataSize * (1/2 + 1/2 * (memberCount : ℚ))
      let transmitCost :=
        cfg.transmitEnergy * aggregatedDataSize * (1 + 2/10 * distance)
      .ok ⟨addA acc.usage headId transmitCost,
           subA acc.energy headId transmitCost,
           acc.data + aggregatedDataSize⟩
    | none => .ok acc

/-- Head→base phase (leach.ts:153-171): every head sends, dead or not. -/
def headToBase (calcDist : Position → Position → ℚ) (cfg : LEACHConfig)
    (nodes : List WSNNode) (baseStation : Option WSNNode)
    (members : List (String × List String)) (heads : List String)
    (acc : CostAcc) : Except String CostAcc :=
  heads.foldlM (headToBaseStep calcDist cfg nodes baseStation members) acc

/-- One round's topology construction and cost accounting
(leach.ts:66-171), producing `(clusterHeads, clusterMembers, energyUsage,
nodeEnergy, dataTransmitted)`. -/
def leachRoundCore (calcDist : Position → Position → ℚ)
    (rng : RandomSource) (cfg : LEACHConfig) (nodes : List WSNNode)
    (round : Nat) (energy : List (String × ℚ)) :
    Except String
      (List String × List (String × List String) × List (String × ℚ) ×
        List (String × ℚ) × ℚ) :=
  let hm1 := leachElect rng cfg round energy nodes
  let hm2 := leachFallback rng round energy nodes hm1
  let clusterHeads := hm2.1
  let clusterMembers := assignMembers calcDist energy nodes clusterHeads hm2.2
  let acc1 :=
    memberToHead calcDist cfg nodes clusterHeads clusterMembers ⟨[], energy, 0⟩
  let baseStation := findBase nodes
  match headToBase calcDist cfg nodes baseStation clusterMembers clusterHeads
      acc1 with
  | .error e => .error e
  | .ok acc2 =>
    .ok (clusterHeads, clusterMembers, acc2.usage, acc2.energy, acc2.data)

/-- One full executed round (leach.ts:66-199): the cost core followed by
the alive count, lifetime bookkeeping, round record, and totals. -/
def leachStep (calcDist : Position → Position → ℚ) (rng : RandomSource)
    (cfg : LEACHConfig) (nodes : List WSNNode) (round : Nat)
    (st : LeachState) : Except String LeachState :=
  match leachRoundCore calcDist rng cfg nodes round st.nodeEnergy with
  | .error e => .error e
  | .ok (clusterHeads, clusterMembers, energyUsage, energy2, data) =>
    let nodesAlive :=
      (nodes.filter (fun n => decide (0 < getD energy2 n.id 0))).length
    let record : LEACHRound :=
      ⟨round, clusterHeads, clusterMembers, energyUsage, nodesAlive, data⟩
    .ok
      { nodeEnergy := energy2
        rounds := st.rounds ++ [record]
        totalEnergyConsumption := st.totalEnergyConsumption + sumVals energyUsage
        dataDelivered := st.dataDelivered + data
        networkDied :=
          if nodesAlive < nodes.length ∧ st.networkDied = false then true
          else st.networkDied
        networkLifetime :=
          if nodesAlive < nodes.length ∧ st.networkDied = false then round
          else st.networkLifetime }

/-- The round loop (leach.ts:61-199): `n` rounds remain, the next round
number is `round`; rounds after network death are skipped entirely
(leach.ts:63-65 `continue`). -/
def leachLoop (calcDist : Position → Position → ℚ) (rng : RandomSource)
    (cfg : LEACHConfig) (nodes : List WSNNode) :
    Nat → Nat → LeachState → Except String LeachState
  | 0, _, st => .ok st
  | n + 1, round, st =>
    if st.networkDied = true then
      leachLoop calcDist rng cfg nodes n (round + 1) st
    else
      match leachStep calcDist rng cfg nodes round st with
      | .error e => .error e
      | .ok st2 => leachLoop calcDist rng cfg nodes n (round + 1) st2

/-- The initial loop state of `simulateLEACH` (leach.ts:48-58):
zeroed accumulators, full energy ledger, lifetime defaulting to
`config.rounds`. -/
def leachInitState (nodes : List WSNNode) (cfg : LEACHConfig) : LeachState :=
  { nodeEnergy := initEnergy nodes cfg.initialEnergy
    rounds := []
    totalEnergyConsumption := 0
    dataDelivered := 0
    networkDied := false
    networkLifetime := cfg.rounds }

/-- `simulateLEACH` (leach.ts:43-217).  A JS `TypeError` thrown mid-run
(missing base station at the head→base step) is modelled as
`Except.error`. -/
def simulateLEACH (calcDist : Position → Position → ℚ) (rng : RandomSource)
    (nodes : List WSNNode) (cfg : LEACHConfig) :
    Except String LEACHSimulationResult :=
  match leachLoop calcDist rng cfg nodes cfg.rounds 1
      (leachInitState nodes cfg) with
  | .error e => .error e
  | .ok st =>
    .ok
      { rounds := st.rounds
        metrics :=
          { energyConsumption := st.totalEnergyConsumption
            networkLifetime := st.networkLifetime
            dataDelivered := st.dataDelivered
            averageEnergy := sumVals st.nodeEnergy / (nodes.length : ℚ) } }

/-! ## PEGASIS (src/simulation/routingAlgorithms/pegasis.ts) -/

/-- `PEGASISConfig.leaderSelectionMethod` (pegasis.ts:31). -/
inductive LeaderMethod where
  | roundRobin
  | energyBased
deriving DecidableEq, Repr

/-- `PEGASISConfig` (pegasis.ts:25). -/
structure PEGASISConfig where
  rounds : Nat
  initialEnergy : ℚ
  transmitEnergy : ℚ
  receiveEnergy : ℚ
  dataSize : ℚ
  leaderSelectionMethod : LeaderMethod
deriving DecidableEq, Repr

/-- `PEGASISRound` (pegasis.ts:16).  `leader` is an `Option`: JS stores
`undefined` there when the chain is empty, modelled as `none`. -/
structure PEGASISRound where
  roundNumber : Nat
  chain : List String
  leader : Option String
  energyUsage : List (String × ℚ)
  nodesAlive : Nat
  dataTransmitted : ℚ
deriving DecidableEq, Repr

/-- `PEGASISSimulationResult.metrics` (pegasis.ts:8). -/
structure PEGASISMetrics where
  energyConsumption : ℚ
  networkLifetime : Nat
  dataDelivered : ℚ
  averageEnergy : ℚ
deriving DecidableEq, Repr

/-- `PEGASISSimulationResult` (pegasis.ts:6). -/
structure PEGASISSimulationResult where
  rounds : List PEGASISRound
  metrics : PEGASISMetrics
deriving DecidableEq, Repr

/-- The mutable locals of `simulatePEGASIS` threaded through the round
loop (pegasis.ts:47-52). -/
structure PegasisState where
  nodeEnergy : List (String × ℚ)
  rounds : List PEGASISRound
  totalEnergyConsumption : ℚ
  dataDelivered : ℚ
  networkDied : Bool
  networkLifetime : Nat
deriving DecidableEq, Repr

/-- Scan for the index of the nearest node (pegasis.ts:234-244): strict
`<` keeps the first index at the minimum distance.  `i` is the index of
the head of the remaining list, `best` the best index so far. -/
def findNearestAux (calcDist : Position → Position → ℚ) (p : Position) :
    List WSNNode → Nat → ℚ → Nat → Nat
  | [], _, _, best => best
  | x :: xs, i, minDistance, best =>
    let distance := calcDist p x.position
    if distance < minDistance then
      findNearestAux calcDist p xs (i + 1) distance i
    else
      findNearestAux calcDist p xs (i + 1) minDistance best

/-- Index of the nearest node in a non-empty list, starting the scan with
index 0 as in the source (`nearestIndex = 0`, `minDistance = dist(l[0])`). -/
def findNearest (calcDist : Position → Position → ℚ) (p : Position)
    (l : List WSNNode) : Nat :=
  match l with
  | [] => 0
  | x :: xs => findNearestAux calcDist p xs 1 (calcDist p x.position) 0

/-- The greedy chain-growing loop (pegasis.ts:231-251): repeatedly append
the nearest not-yet-included node and remove it from the pool.  `fuel`
structurally bounds the recursion; callers pass `rest.length`, which makes
the fuel-exhausted and index-out-of-range branches unreachable. -/
def greedyChainAux (calcDist : Position → Position → ℚ) :
    Nat → WSNNode → List WSNNode → List String
  | _, _, [] => []
  | 0, _, _ :: _ => []
  | fuel + 1, currentNode, x :: xs =>
    let nearestIndex := findNearest calcDist currentNode.position (x :: xs)
    match (x :: xs).get? nearestIndex with
    | some next =>
      next.id ::
        greedyChainAux calcDist fuel next ((x :: xs).eraseIdx nearestIndex)
    | none => []

/-- `constructGreedyChain` (pegasis.ts:219-254).  The source comment says
"start with a random node" but `nodesCopy.shift()` deterministically takes
the first node of the list. -/
def constructGreedyChain (calcDist : Position → Position → ℚ)
    (nodes : List WSNNode) : List String :=
  match nodes with
  | [] => []
  | [n] => [n.id]
  | currentNode :: rest =>
    currentNode.id :: greedyChainAux calcDist rest.length currentNode rest

/-- Leader selection (pegasis.ts:79-92).  `roundRobin` indexes the chain
at `(round - 1) % chain.length`; `energyBased` is the source's `reduce`
over the whole chain seeded with `chain[0]`, strict `>` keeping the first
occurrence on ties.  An empty chain yields JS `undefined`, modelled
`none`. -/
def selectLeader (cfg : PEGASISConfig) (chain : List String) (round : Nat)
    (energy : List (String × ℚ)) : Option String :=
  match cfg.leaderSelectionMethod with
  | .roundRobin => chain.get? ((round - 1) % chain.length)
  | .energyBased =>
    match chain with
    | [] => none
    | c0 :: _ =>
      some (chain.foldl
        (fun maxId nodeId =>
          if getD energy maxId 0 < getD energy nodeId 0 then nodeId
          else maxId)
        c0)

/-- One relay hop (pegasis.ts:100-127 and the identical loop body at
pegasis.ts:129-156): a dead sender is skipped entirely; a live sender pays
the distance-scaled transmit cost; a receiver found dead *after* that
deduction is not charged and no data is counted.  Sender/receiver lookups
cannot fail (chain ids come from `nodes`); the unreachable failure is a
no-op where the source's non-null assertion would throw. -/
def relayHop (calcDist : Position → Position → ℚ) (cfg : PEGASISConfig)
    (nodes : List WSNNode) (acc : CostAcc) (senderId receiverId : String) :
    CostAcc :=
  if getD acc.energy senderId 0 ≤ 0 then acc
  else
    match findNode nodes senderId, findNode nodes receiverId with
    | some sender, some receiver =>
      let distance := calcDist sender.position receiver.position
      let transmitCost :=
        cfg.transmitEnergy * cfg.dataSize * (1 + 1/10 * distance)
      let usage1 := addA acc.usage senderId transmitCost
      let energy1 := subA acc.energy senderId transmitCost
      if getD energy1 receiverId 0 ≤ 0 then ⟨usage1, energy1, acc.data⟩
      else
        let receiveCost := cfg.receiveEnergy * cfg.dataSize
        ⟨addA usage1 receiverId receiveCost,
         subA energy1 receiverId receiveCost,
         acc.data + cfg.dataSize⟩
    | _, _ => acc

/-- Leader→base transmission (pegasis.ts:158-172): silently skipped when
the base station is absent or the leader is dead (`if (baseStation &&
nodeEnergy[leader] > 0)`). -/
def leaderToBase (calcDist : Position → Position → ℚ) (cfg : PEGASISConfig)
    (nodes : List WSNNode) (baseStation : Option WSNNode)
    (leader : Option String) (acc : CostAcc) : CostAcc :=
  match baseStation, leader with
  | some bs, some l =>
    if 0 < getD acc.energy l 0 then
      match findNode nodes l with
      | some leaderNode =>
        let distance := calcDist leaderNode.position bs.position
        let aggregatedDataSize := cfg.dataSize * (8/10)
        let transmitCost :=
          cfg.transmitEnergy * aggregatedDataSize * (1 + 2/10 * distance)
        ⟨addA acc.usage l transmitCost,
         subA acc.energy l transmitCost,
         acc.data + aggregatedDataSize⟩
      | none => acc
    else acc
  | _, _ => acc

/-- One round's leader selection, relay phases and leader→base send
(pegasis.ts:75-172), producing `(leader, energyUsage, nodeEnergy,
dataTransmitted)`.  The left loop walks indices `0 .. leaderIndex-1`
forward (hop `i → i+1`), the right loop walks `len-1 .. leaderIndex+1`
backward (hop `i → i-1`). -/
def pegasisRoundCore (calcDist : Position → Position → ℚ)
    (cfg : PEGASISConfig) (nodes : List WSNNode) (chain : List String)
    (baseStation : Option WSNNode) (round : Nat)
    (energy : List (String × ℚ)) :
    Option String × List (String × ℚ) × List (String × ℚ) × ℚ :=
  let leader := selectLeader cfg chain round energy
  let leaderIndex :=
    match leader with
    | some l => chain.indexOf l
    | none => chain.length
  let acc1 :=
    (List.range leaderIndex).foldl
      (fun acc i =>
        match chain.get? i, chain.get? (i + 1) with
        | some senderId, some receiverId =>
          relayHop calcDist cfg nodes acc senderId receiverId
        | _, _ => acc)
      ⟨[], energy, 0⟩
  let acc2 :=
    ((List.range' (leaderIndex + 1) (chain.length - (leaderIndex + 1))).reverse).foldl
      (fun acc i =>
        match chain.get? i, chain.get? (i - 1) with
        | some senderId, some receiverId =>
          relayHop calcDist cfg nodes acc senderId receiverId
        | _, _ => acc)
      acc1
  let acc3 := leaderToBase calcDist cfg nodes baseStation leader acc2
  (leader, acc3.usage, acc3.energy, acc3.data)

/-- One full executed round (pegasis.ts:67-204): the cost core followed by
the alive count, lifetime bookkeeping, round record (with its chain
snapshot `[...chain]`), and totals. -/
def pegasisStep (calcDist : Position → Position → ℚ) (cfg : PEGASISConfig)
    (nodes : List WSNNode) (chain : List String)
    (baseStation : Option WSNNode) (round : Nat) (st : PegasisState) :
    PegasisState :=
  match pegasisRoundCore calcDist cfg nodes chain baseStation round
      st.nodeEnergy with
  | (leader, energyUsage, energy2, data) =>
    let nodesAlive :=
      (nodes.filter (fun n => decide (0 < getD energy2 n.id 0))).length
    let record : PEGASISRound :=
      ⟨round, chain, leader, energyUsage, nodesAlive, data⟩
    { nodeEnergy := energy2
      rounds := st.rounds ++ [record]
      totalEnergyConsumption := st.totalEnergyConsumption + sumVals energyUsage
      dataDelivered := st.dataDelivered + data
      networkDied :=
        if nodesAlive < nodes.length ∧ st.networkDied = false then true
        else st.networkDied
      networkLifetime :=
        if nodesAlive < nodes.length ∧ st.networkDied = false then round
        else st.networkLifetime }

/-- The round loop (pegasis.ts:67-204); rounds after network death are
skipped entirely (pegasis.ts:70-72 `continue`). -/
def pegasisLoop (calcDist : Position → Position → ℚ) (cfg : PEGASISConfig)
    (nodes : List WSNNode) (chain : List String)
    (baseStation : Option WSNNode) :
    Nat → Nat → PegasisState → PegasisState
  | 0, _, st => st
  | n + 1, round, st =>
    if st.networkDied = true then
      pegasisLoop calcDist cfg nodes chain baseStation n (round + 1) st
    else
      pegasisLoop calcDist cfg nodes chain baseStation n (round + 1)
        (pegasisStep calcDist cfg nodes chain baseStation round st)

/-- The initial loop state of `simulatePEGASIS` (pegasis.ts:47-57). -/
def pegasisInitState (nodes : List WSNNode) (cfg : PEGASISConfig) :
    PegasisState :=
  { nodeEnergy := initEnergy nodes cfg.initialEnergy
    rounds := []
    totalEnergyConsumption := 0
    dataDelivered := 0
    networkDied := false
    networkLifetime := cfg.rounds }

/-- `nodes.filter(node => node.type !== 'base')` (pegasis.ts:61): the
nodes placed in the chain — every non-base node. -/
def sensorNodesOf (nodes : List WSNNode) : List WSNNode :=
  nodes.filter (fun n => decide (n.type ≠ NodeType.base))

/-- The final state of the `simulatePEGASIS` round loop. -/
def pegasisFinalState (calcDist : Position → Position → ℚ)
    (nodes : List WSNNode) (cfg : PEGASISConfig) : PegasisState :=
  pegasisLoop calcDist cfg nodes
    (constructGreedyChain calcDist (sensorNodesOf nodes)) (findBase nodes)
    cfg.rounds 1 (pegasisInitState nodes cfg)

/-- `simulatePEGASIS` (pegasis.ts:43-216).  The base station is looked up
once, the sensor list (every non-base node) is filtered once, and the
chain is built once before the loop. -/
def simulatePEGASIS (calcDist : Position → Position → ℚ)
    (nodes : List WSNNode) (cfg : PEGASISConfig) : PEGASISSimulationResult :=
  let st := pegasisFinalState calcDist nodes cfg
  { rounds := st.rounds
    metrics :=
      { energyConsumption := st.totalEnergyConsumption
        networkLifetime := st.networkLifetime
        dataDelivered := st.dataDelivered
        averageEnergy := sumVals st.nodeEnergy / (nodes.length : ℚ) } }

/-- The all-zero distance function: agrees with the source's
`calculateDistance` whenever all positions coincide. -/
def zeroDist : Position → Position → ℚ := fun _ _ => 0

/-! ## LEACH loop invariants -/

/-- Invariant of the `simulateLEACH` round loop, at the point where the
next round to execute is `round`: the log is contiguously numbered from 1;
the running energy total reconciles with the log; while the network has
not died the log has one entry per past round and the lifetime still holds
its initial value `config.rounds`; once it has died the log froze at
`networkLifetime` entries, the death round is at most `round - 1`, and the
log records a round with a death. -/
def LeachInv (cfg : LEACHConfig) (N : Nat) (round : Nat)
    (st : LeachState) : Prop :=
  st.rounds.map (fun r => r.roundNumber) = List.range' 1 st.rounds.length ∧
  st.totalEnergyConsumption =
    (st.rounds.map (fun r => sumVals r.energyUsage)).sum ∧
  (st.networkDied = false →
    st.rounds.length + 1 = round ∧ st.networkLifetime = cfg.rounds) ∧
  (st.networkDied = true →
    st.rounds.length = st.networkLifetime ∧
    st.networkLifetime + 1 ≤ round ∧
    ∃ r ∈ st.rounds, r.nodesAlive < N)


theorem leachStep_shape (calcDist : Position → Position → ℚ)
    (rng : RandomSource) (cfg : LEACHConfig) (nodes : List WSNNode)
    (round : Nat) (st st2 : LeachState)
    (h : leachStep calcDist rng cfg nodes round st = .ok st2) :
    ∃ r, st2.rounds = st.rounds ++ [r] ∧ r.roundNumber = round ∧
      r.nodesAlive ≤ nodes.length ∧
      st2.totalEnergyConsumption =
        st.totalEnergyConsumption + sumVals r.energyUsage ∧
      leachRoundCore calcDist rng cfg nodes round st.nodeEnergy =
        .ok (r.clusterHeads, r.clusterMembers, r.energyUsage,
          st2.nodeEnergy, r.dataTransmitted) ∧
      ((r.nodesAlive < nodes.length ∧ st.networkDied = false ∧
        st2.networkDied = true ∧ st2.networkLifetime = round) ∨
       (¬(r.nodesAlive < nodes.length ∧ st.networkDied = false) ∧
        st2.networkDied = st.networkDied ∧
        st2.networkLifetime = st.networkLifetime)) := by
  unfold leachStep at h
  cases hcore : leachRoundCore calcDist rng cfg nodes round st.nodeEnergy with
  | error e => rw [hcore] at h; cases h
  | ok tup =>
    obtain ⟨clusterHeads, clusterMembers, energyUsage, energy2, data⟩ := tup
    rw [hcore] at h
    dsimp only at h
    set nodesAlive :=
      (nodes.filter (fun n => decide (0 < getD energy2 n.id 0))).length
      with hAlive
    have hle : nodesAlive ≤ nodes.length := List.length_filter_le _ _
    by_cases hc : nodesAlive < nodes.length ∧ st.networkDied = false
    · simp only [if_pos hc] at h
      injection h with h2
      subst h2
      exact ⟨⟨round, clusterHeads, clusterMembers, energyUsage, nodesAlive,
        data⟩, rfl, rfl, hle, rfl, rfl, Or.inl ⟨hc.1, hc.2, rfl, rfl⟩⟩
    · simp only [if_neg hc] at h
      injection h with h2
      subst h2
      exact ⟨⟨round, clusterHeads, clusterMembers, energyUsage, nodesAlive,
        data⟩, rfl, rfl, hle, rfl, rfl, Or.inr ⟨hc, rfl, rfl⟩⟩

theorem leachStep_inv (calcDist : Position → Position → ℚ)
    (rng : RandomSource) (cfg : LEACHConfig) (nodes : List WSNNode)
    (round : Nat) (st st2 : LeachState) (hd : st.networkDied = false)
    (hInv : LeachInv cfg nodes.length round st)
    (h : leachStep calcDist rng cfg nodes round st = .ok st2) :
    LeachInv cfg nodes.length (round + 1) st2 := by
  obtain ⟨hmap, htot, hfalse, htrue⟩ := hInv
  obtain ⟨hlen, hlife⟩ := hfalse hd
  obtain ⟨r, hrounds, hnum, hle, htot2, hcore, hcases⟩ :=
    leachStep_shape calcDist rng cfg nodes round st st2 h
  refine ⟨?_, ?_, ?_, ?_⟩
  · rw [hrounds, List.map_append, hmap]
    simp only [List.map_cons, List.map_nil, hnum, List.length_append,
      List.length_cons, List.length_nil, Nat.add_zero]
    rw [List.range'_concat]
    congr 2
    omega
  · rw [hrounds, htot2, htot, List.map_append]
    simp
  · intro hd2
    rcases hcases with ⟨_, _, hdt, _⟩ | ⟨_, hdeq, hleq⟩
    · rw [hdt] at hd2; cases hd2
    · have hlen2 : st2.rounds.length = st.rounds.length + 1 := by
        rw [hrounds]; simp
      exact ⟨by omega, by rw [hleq, hlife]⟩
  · intro hd2
    rcases hcases with ⟨hrlt, _, _, hlt⟩ | ⟨_, hdeq, _⟩
    · have hlen2 : st2.rounds.length = st.rounds.length + 1 := by
        rw [hrounds]; simp
      refine ⟨by omega, by omega, r, ?_, hrlt⟩
      rw [hrounds]
      simp
    · rw [hdeq, hd] at hd2; cases hd2

theorem leachLoop_inv (calcDist : Position → Position → ℚ)
    (rng : RandomSource) (cfg : LEACHConfig) (nodes : List WSNNode) :
    ∀ (n round : Nat) (st st2 : LeachState),
      LeachInv cfg nodes.length round st →
      leachLoop calcDist rng cfg nodes n round st = .ok st2 →
      LeachInv cfg nodes.length (round + n) st2 := by
  intro n
  induction n with
  | zero =>
    intro round st st2 hInv h
    rw [leachLoop] at h
    injection h with h2
    subst h2
    exact hInv
  | succ n ih =>
    intro round st st2 hInv h
    rw [leachLoop] at h
    by_cases hd : st.networkDied = true
    · rw [if_pos hd] at h
      have hInv2 : LeachInv cfg nodes.length (round + 1) st := by
        obtain ⟨hmap, htot, hfalse, htrue⟩ := hInv
        refine ⟨hmap, htot, ?_, ?_⟩
        · intro hdf; rw [hd] at hdf; cases hdf
        · intro _
          obtain ⟨h1, h2, h3⟩ := htrue hd
          exact ⟨h1, by omega, h3⟩
      have h3 := ih (round + 1) st st2 hInv2 h
      have heq : round + 1 + n = round + (n + 1) := by omega
      rw [heq] at h3
      exact h3
    · rw [if_neg hd] at h
      have hdf : st.networkDied = false := by
        cases hdb : st.networkDied
        · rfl
        · exact absurd hdb hd
      cases hstep : leachStep calcDist rng cfg nodes round st with
      | error e => rw [hstep] at h; cases h
      | ok st1 =>
        rw [hstep] at h
        have hInv1 :=
          leachStep_inv calcDist rng cfg nodes round st st1 hdf hInv hstep
        have h3 := ih (round + 1) st1 st2 hInv1 h
        have heq : round + 1 + n = round + (n + 1) := by omega
        rw [heq] at h3
        exact h3

/-- Everything the LEACH loop invariant yields about a completed run:
log length equals the lifetime metric, contiguous 1-based numbering,
lifetime bounded by `config.rounds`, exact energy reconciliation, and the
two provable directions of the lifetime/death relationship. -/
theorem simulateLEACH_ok (calcDist : Position → Position → ℚ)
    (rng : RandomSource) (nodes : List WSNNode) (cfg : LEACHConfig)
    (res : LEACHSimulationResult)
    (h : simulateLEACH calcDist rng nodes cfg = .ok res) :
    res.rounds.length = res.metrics.networkLifetime ∧
    res.metrics.networkLifetime ≤ cfg.rounds ∧
    res.rounds.map (fun r => r.roundNumber) =
      List.range' 1 res.rounds.length ∧
    res.metrics.energyConsumption =
      (res.rounds.map (fun r => sumVals r.energyUsage)).sum ∧
    ((∀ r ∈ res.rounds, ¬(r.nodesAlive < nodes.length)) →
      res.metrics.networkLifetime = cfg.rounds) ∧
    (res.metrics.networkLifetime < cfg.rounds →
      ∃ r ∈ res.rounds, r.nodesAlive < nodes.length) := by
  unfold simulateLEACH at h
  cases hloop : leachLoop calcDist rng cfg nodes cfg.rounds 1
      (leachInitState nodes cfg) with
  | error e => rw [hloop] at h; cases h
  | ok st =>
    rw [hloop] at h
    injection h with h2
    subst h2
    have hInv0 : LeachInv cfg nodes.length 1 (leachInitState nodes cfg) := by
      refine ⟨by simp [leachInitState, List.range'],
        by simp [leachInitState], ?_, ?_⟩
      · intro _; exact ⟨by simp [leachInitState], by simp [leachInitState]⟩
      · intro hdt; simp [leachInitState] at hdt
    have hInv := leachLoop_inv calcDist rng cfg nodes cfg.rounds 1 _ st
      hInv0 hloop
    obtain ⟨hmap, htot, hfalse, htrue⟩ := hInv
    cases hdb : st.networkDied with
    | false =>
      obtain ⟨hlen, hlife⟩ := hfalse hdb
      refine ⟨by simp only; omega, by simp only; omega, hmap, htot,
        fun _ => hlife, ?_⟩
      intro hlt
      simp only at hlt
      rw [hlife] at hlt
      omega
    | true =>
      obtain ⟨hlen, hbound, hex⟩ := htrue hdb
      refine ⟨hlen, by simp only; omega, hmap, htot, ?_, fun _ => hex⟩
      intro hall
      obtain ⟨r, hmem, hrlt⟩ := hex
      exact absurd hrlt (hall r hmem)

/-! ## PEGASIS loop invariants -/

/-- Invariant of the `simulatePEGASIS` round loop; identical bookkeeping
to `LeachInv`, plus: every recorded round's chain snapshot is the single
chain built before the loop. -/
def PegasisInv (cfg : PEGASISConfig) (chain : List String) (N : Nat)
    (round : Nat) (st : PegasisState) : Prop :=
  st.rounds.map (fun r => r.roundNumber) = List.range' 1 st.rounds.length ∧
  st.totalEnergyConsumption =
    (st.rounds.map (fun r => sumVals r.energyUsage)).sum ∧
  (∀ r ∈ st.rounds, r.chain = chain) ∧
  (st.networkDied = false →
    st.rounds.length + 1 = round ∧ st.networkLifetime = cfg.rounds) ∧
  (st.networkDied = true →
    st.rounds.length = st.networkLifetime ∧
    st.networkLifetime + 1 ≤ round ∧
    ∃ r ∈ st.rounds, r.nodesAlive < N)

theorem pegasisStep_shape (calcDist : Position → Position → ℚ)
    (cfg : PEGASISConfig) (nodes : List WSNNode) (chain : List String)
    (baseStation : Option WSNNode) (round : Nat) (st : PegasisState) :
    ∃ r,
      (pegasisStep calcDist cfg nodes chain baseStation round st).rounds =
        st.rounds ++ [r] ∧
      r.roundNumber = round ∧ r.chain = chain ∧
      r.nodesAlive ≤ nodes.length ∧
      (pegasisStep calcDist cfg nodes chain baseStation round
        st).totalEnergyConsumption =
        st.totalEnergyConsumption + sumVals r.energyUsage ∧
      pegasisRoundCore calcDist cfg nodes chain baseStation round
        st.nodeEnergy =
        (r.leader, r.energyUsage,
          (pegasisStep calcDist cfg nodes chain baseStation round
            st).nodeEnergy, r.dataTransmitted) ∧
      ((r.nodesAlive < nodes.length ∧ st.networkDied = false ∧
        (pegasisStep calcDist cfg nodes chain baseStation round
          st).networkDied = true ∧
        (pegasisStep calcDist cfg nodes chain baseStation round
          st).networkLifetime = round) ∨
       (¬(r.nodesAlive < nodes.length ∧ st.networkDied = false) ∧
        (pegasisStep calcDist cfg nodes chain baseStation round
          st).networkDied = st.networkDied ∧
        (pegasisStep calcDist cfg nodes chain baseStation round
          st).networkLifetime = st.networkLifetime)) := by
  unfold pegasisStep
  rcases hcore : pegasisRoundCore calcDist cfg nodes chain baseStation round
    st.nodeEnergy with ⟨leader, energyUsage, energy2, data⟩
  dsimp only
  set nodesAlive :=
    (nodes.filter (fun n => decide (0 < getD energy2 n.id 0))).length
    with hAlive
  have hle : nodesAlive ≤ nodes.length := List.length_filter_le _ _
  by_cases hc : nodesAlive < nodes.length ∧ st.networkDied = false
  · simp only [if_pos hc]
    exact ⟨⟨round, chain, leader, energyUsage, nodesAlive, data⟩,
      rfl, rfl, rfl, hle, rfl, by trivial,
      Or.inl ⟨hc.1, hc.2, by trivial, by trivial⟩⟩
  · simp only [if_neg hc]
    exact ⟨⟨round, chain, leader, energyUsage, nodesAlive, data⟩,
      rfl, rfl, rfl, hle, rfl, by trivial,
      Or.inr ⟨hc, by trivial, by trivial⟩⟩

theorem pegasisStep_inv (calcDist : Position → Position → ℚ)
    (cfg : PEGASISConfig) (nodes : List WSNNode) (chain : List String)
    (baseStation : Option WSNNode) (round : Nat) (st : PegasisState)
    (hd : st.networkDied = false)
    (hInv : PegasisInv cfg chain nodes.length round st) :
    PegasisInv cfg chain nodes.length (round + 1)
      (pegasisStep calcDist cfg nodes chain baseStation round st) := by
  obtain ⟨hmap, htot, hchain, hfalse, htrue⟩ := hInv
  obtain ⟨hlen, hlife⟩ := hfalse hd
  obtain ⟨r, hrounds, hnum, hch, hle, htot2, hcore, hcases⟩ :=
    pegasisStep_shape calcDist cfg nodes chain baseStation round st
  refine ⟨?_, ?_, ?_, ?_, ?_⟩
  · rw [hrounds, List.map_append, hmap]
    simp only [List.map_cons, List.map_nil, hnum, List.length_append,
      List.length_cons, List.length_nil, Nat.add_zero]
    rw [List.range'_concat]
    congr 2
    omega
  · rw [hrounds, htot2, htot, List.map_append]
    simp
  · intro r2 hmem
    rw [hrounds] at hmem
    rcases List.mem_append.mp hmem with hm | hm
    · exact hchain r2 hm
    · rw [List.mem_singleton.mp hm, hch]
  · intro hd2
    rcases hcases with ⟨_, _, hdt, _⟩ | ⟨_, hdeq, hleq⟩
    · rw [hdt] at hd2; cases hd2
    · have hlen2 : (pegasisStep calcDist cfg nodes chain baseStation round
          st).rounds.length = st.rounds.length + 1 := by
        rw [hrounds]; simp
      exact ⟨by omega, by rw [hleq, hlife]⟩
  · intro hd2
    rcases hcases with ⟨hrlt, _, _, hlt⟩ | ⟨_, hdeq, _⟩
    · have hlen2 : (pegasisStep calcDist cfg nodes chain baseStation round
          st).rounds.length = st.rounds.length + 1 := by
        rw [hrounds]; simp
      refine ⟨by omega, by omega, r, ?_, hrlt⟩
      rw [hrounds]
      simp
    · rw [hdeq, hd] at hd2; cases hd2

theorem pegasisLoop_inv (calcDist : Position → Position → ℚ)
    (cfg : PEGASISConfig) (nodes : List WSNNode) (chain : List String)
    (baseStation : Option WSNNode) :
    ∀ (n round : Nat) (st : PegasisState),
      PegasisInv cfg chain nodes.length round st →
      PegasisInv cfg chain nodes.length (round + n)
        (pegasisLoop calcDist cfg nodes chain baseStation n round st) := by
  intro n
  induction n with
  | zero =>
    intro round st hInv
    rw [pegasisLoop]
    exact hInv
  | succ n ih =>
    intro round st hInv
    rw [pegasisLoop]
    by_cases hd : st.networkDied = true
    · rw [if_pos hd]
      have hInv2 : PegasisInv cfg chain nodes.length (round + 1) st := by
        obtain ⟨hmap, htot, hchain, hfalse, htrue⟩ := hInv
        refine ⟨hmap, htot, hchain, ?_, ?_⟩
        · intro hdf; rw [hd] at hdf; cases hdf
        · intro _
          obtain ⟨h1, h2, h3⟩ := htrue hd
          exact ⟨h1, by omega, h3⟩
      have h3 := ih (round + 1) st hInv2
      have heq : round + 1 + n = round + (n + 1) := by omega
      rw [heq] at h3
      exact h3
    · rw [if_neg hd]
      have hdf : st.networkDied = false := by
        cases hdb : st.networkDied
        · rfl
        · exact absurd hdb hd
      have hInv1 := pegasisStep_inv calcDist cfg nodes chain baseStation
        round st hdf hInv
      have h3 := ih (round + 1) _ hInv1
      have heq : round + 1 + n = round + (n + 1) := by omega
      rw [heq] at h3
      exact h3

/-- The loop invariant holds of the final PEGASIS loop state. -/
theorem pegasisFinal_inv (calcDist : Position → Position → ℚ)
    (nodes : List WSNNode) (cfg : PEGASISConfig) :
    PegasisInv cfg (constructGreedyChain calcDist (sensorNodesOf nodes))
      nodes.length (1 + cfg.rounds)
      (pegasisFinalState calcDist nodes cfg) := by
  have hInv0 : PegasisInv cfg
      (constructGreedyChain calcDist (sensorNodesOf nodes)) nodes.length 1
      (pegasisInitState nodes cfg) := by
    refine ⟨by simp [pegasisInitState, List.range'],
      by simp [pegasisInitState], by simp [pegasisInitState], ?_, ?_⟩
    · intro _
      exact ⟨by simp [pegasisInitState], by simp [pegasisInitState]⟩
    · intro hdt; simp [pegasisInitState] at hdt
  exact pegasisLoop_inv calcDist cfg nodes
    (constructGreedyChain calcDist (sensorNodesOf nodes)) (findBase nodes)
    cfg.rounds 1 (pegasisInitState nodes cfg) hInv0

/-- Everything the PEGASIS loop invariant yields about a completed run. -/
theorem simulatePEGASIS_props (calcDist : Position → Position → ℚ)
    (nodes : List WSNNode) (cfg : PEGASISConfig) :
    (simulatePEGASIS calcDist nodes cfg).rounds.length =
      (simulatePEGASIS calcDist nodes cfg).metrics.networkLifetime ∧
    (simulatePEGASIS calcDist nodes cfg).metrics.networkLifetime ≤
      cfg.rounds ∧
    (simulatePEGASIS calcDist nodes cfg).rounds.map
      (fun r => r.roundNumber) =
      List.range' 1 (simulatePEGASIS calcDist nodes cfg).rounds.length ∧
    (simulatePEGASIS calcDist nodes cfg).metrics.energyConsumption =
      ((simulatePEGASIS calcDist nodes cfg).rounds.map
        (fun r => sumVals r.energyUsage)).sum ∧
    (∀ r ∈ (simulatePEGASIS calcDist nodes cfg).rounds,
      r.chain = constructGreedyChain calcDist (sensorNodesOf nodes)) ∧
    ((∀ r ∈ (simulatePEGASIS calcDist nodes cfg).rounds,
        ¬(r.nodesAlive < nodes.length)) →
      (simulatePEGASIS calcDist nodes cfg).metrics.networkLifetime =
        cfg.rounds) ∧
    ((simulatePEGASIS calcDist nodes cfg).metrics.networkLifetime <
        cfg.rounds →
      ∃ r ∈ (simulatePEGASIS calcDist nodes cfg).rounds,
        r.nodesAlive < nodes.length) := by
  obtain ⟨hmap, htot, hchain, hfalse, htrue⟩ :=
    pegasisFinal_inv calcDist nodes cfg
  have hr : (simulatePEGASIS calcDist nodes cfg).rounds =
      (pegasisFinalState calcDist nodes cfg).rounds := rfl
  have hl : (simulatePEGASIS calcDist nodes cfg).metrics.networkLifetime =
      (pegasisFinalState calcDist nodes cfg).networkLifetime := rfl
  have he : (simulatePEGASIS calcDist nodes cfg).metrics.energyConsumption =
      (pegasisFinalState calcDist nodes cfg).totalEnergyConsumption := rfl
  rw [hr, hl, he]
  cases hdb : (pegasisFinalState calcDist nodes cfg).networkDied with
  | false =>
    obtain ⟨hlen, hlife⟩ := hfalse hdb
    refine ⟨by omega, by omega, hmap, htot, hchain, fun _ => hlife, ?_⟩
    intro hlt
    rw [hlife] at hlt
    omega
  | true =>
    obtain ⟨hlen, hbound, hex⟩ := htrue hdb
    refine ⟨hlen, by omega, hmap, htot, hchain, ?_, fun _ => hex⟩
    intro hall
    obtain ⟨r, hmem, hrlt⟩ := hex
    exact absurd hrlt (hall r hmem)

/-! ## Greedy-chain lemmas -/

theorem findNearestAux_lt (calcDist : Position → Position → ℚ)
    (p : Position) :
    ∀ (l : List WSNNode) (i : Nat) (md : ℚ) (best : Nat),
      best < i → findNearestAux calcDist p l i md best < i + l.length := by
  intro l
  induction l with
  | nil =>
    intro i md best hb
    rw [findNearestAux]
    omega
  | cons x xs ih =>
    intro i md best hb
    rw [findNearestAux]
    split
    · have := ih (i + 1) (calcDist p x.position) i (by omega)
      simpa [Nat.add_comm, Nat.add_left_comm] using this
    · have := ih (i + 1) md best (by omega)
      simpa [Nat.add_comm, Nat.add_left_comm] using this

theorem findNearest_lt (calcDist : Position → Position → ℚ) (p : Position)
    (l : List WSNNode) (h : l ≠ []) : findNearest calcDist p l < l.length := by
  cases l with
  | nil => exact absurd rfl h
  | cons x xs =>
    have := findNearestAux_lt calcDist p xs 1 (calcDist p x.position) 0
      (by omega)
    simpa [findNearest, Nat.add_comm] using this

theorem perm_cons_eraseIdx {α : Type} (l : List α) (i : Nat)
    (h : i < l.length) : l.Perm (l[i] :: l.eraseIdx i) := by
  conv_lhs => rw [← List.take_append_drop i l]
  rw [List.drop_eq_getElem_cons h, List.eraseIdx_eq_take_drop_succ]
  exact List.perm_middle

/-- The greedy chain-growing loop emits exactly the ids of its node pool,
in some order, whenever the fuel covers the pool (callers pass the pool's
length). -/
theorem greedyChainAux_perm (calcDist : Position → Position → ℚ) :
    ∀ (fuel : Nat) (rest : List WSNNode) (cur : WSNNode),
      rest.length ≤ fuel →
      (greedyChainAux calcDist fuel cur rest).Perm
        (rest.map (fun n => n.id)) := by
  intro fuel
  induction fuel with
  | zero =>
    intro rest cur hle
    have : rest = [] := List.length_eq_zero.mp (by omega)
    subst this
    rw [greedyChainAux]
    exact List.Perm.refl _
  | succ fuel ih =>
    intro rest cur hle
    cases rest with
    | nil =>
      rw [greedyChainAux]
      exact List.Perm.refl _
    | cons x xs =>
      have hi : findNearest calcDist cur.position (x :: xs) <
          (x :: xs).length :=
        findNearest_lt calcDist cur.position (x :: xs) (by simp)
      have hsome : (x :: xs).get? (findNearest calcDist cur.position
          (x :: xs)) = some ((x :: xs)[findNearest calcDist cur.position
          (x :: xs)]) := by
        rw [List.get?_eq_getElem?, List.getElem?_eq_getElem hi]
      rw [greedyChainAux, hsome]
      have hlen : ((x :: xs).eraseIdx (findNearest calcDist cur.position
          (x :: xs))).length ≤ fuel := by
        rw [List.length_eraseIdx_of_lt hi]
        simp only [List.length_cons] at hle ⊢
        omega
      have hperm1 := ih ((x :: xs).eraseIdx (findNearest calcDist
        cur.position (x :: xs)))
        ((x :: xs)[findNearest calcDist cur.position (x :: xs)]) hlen
      have hperm2 := (perm_cons_eraseIdx (x :: xs) (findNearest calcDist
        cur.position (x :: xs)) hi).map (fun n => n.id)
      exact ((hperm1.cons _).trans
        (by simpa using hperm2.symm))

/-- `constructGreedyChain` returns a permutation of the ids of its input
node list. -/
theorem constructGreedyChain_perm (calcDist : Position → Position → ℚ)
    (nodes : List WSNNode) :
    (constructGreedyChain calcDist nodes).Perm
      (nodes.map (fun n => n.id)) := by
  match nodes with
  | [] => exact List.Perm.refl _
  | [n] => exact List.Perm.refl _
  | a :: b :: t =>
    have := greedyChainAux_perm calcDist (b :: t).length (b :: t) a
      (le_refl _)
    exact this.cons a.id

/-- The chain starts with the first node of the pool (the source's
`nodesCopy.shift()`), not a random one. -/
theorem constructGreedyChain_head (calcDist : Position → Position → ℚ)
    (n : WSNNode) (rest : List WSNNode) :
    (constructGreedyChain calcDist (n :: rest)).head? = some n.id := by
  cases rest with
  | nil => rfl
  | cons b t => rfl

/-! ## Energy monotonicity -/

theorem foldl_energy_le {α : Type} (f : CostAcc → α → CostAcc)
    (hf : ∀ (a : CostAcc) (x : α) (id : String),
      getD (f a x).energy id 0 ≤ getD a.energy id 0) :
    ∀ (l : List α) (a : CostAcc) (id : String),
      getD (l.foldl f a).energy id 0 ≤ getD a.energy id 0 := by
  intro l
  induction l with
  | nil => intro a id; exact le_refl _
  | cons x xs ih =>
    intro a id
    rw [List.foldl_cons]
    exact le_trans (ih (f a x) id) (hf a x id)

theorem foldlM_energy_le {α : Type}
    (f : CostAcc → α → Except String CostAcc)
    (hf : ∀ (a : CostAcc) (x : α) (b : CostAcc), f a x = .ok b →
      ∀ id : String, getD b.energy id 0 ≤ getD a.energy id 0) :
    ∀ (l : List α) (a b : CostAcc), l.foldlM f a = .ok b →
      ∀ id : String, getD b.energy id 0 ≤ getD a.energy id 0 := by
  intro l
  induction l with
  | nil =>
    intro a b h id
    rw [List.foldlM_nil] at h
    injection h with h2
    subst h2
    exact le_refl _
  | cons x xs ih =>
    intro a b h id
    rw [List.foldlM_cons] at h
    cases hfa : f a x with
    | error e => rw [hfa] at h; cases h
    | ok a1 =>
      rw [hfa] at h
      have h2 : xs.foldlM f a1 = .ok b := h
      exact le_trans (ih a1 b h2 id) (hf a x a1 hfa id)

/-- The member→head transmit cost is non-negative under non-negative
constants and distances. -/
theorem transmitCost_nonneg (te ds d : ℚ) (ht : 0 ≤ te) (hd : 0 ≤ ds)
    (hdist : 0 ≤ d) : 0 ≤ te * ds * (1 + 1/10 * d) := by
  have : (0:ℚ) ≤ 1 + 1/10 * d := by linarith
  exact mul_nonneg (mul_nonneg ht hd) this

theorem memberToHead_energy_le (calcDist : Position → Position → ℚ)
    (cfg : LEACHConfig) (nodes : List WSNNode) (heads : List String)
    (members : List (String × List String)) (acc0 : CostAcc)
    (ht : 0 ≤ cfg.transmitEnergy) (hr : 0 ≤ cfg.receiveEnergy)
    (hd : 0 ≤ cfg.dataSize)
    (hdist : ∀ p q : Position, 0 ≤ calcDist p q) :
    ∀ id : String,
      getD (memberToHead calcDist cfg nodes heads members acc0).energy id 0 ≤
        getD acc0.energy id 0 := by
  intro id
  unfold memberToHead
  refine foldl_energy_le _ ?_ heads acc0 id
  intro a x id2
  refine foldl_energy_le _ ?_ (getD members x []) a id2
  intro a2 x2 id3
  cases hm : findNode nodes x2 with
  | none => exact le_refl _
  | some member =>
    cases hh : findNode nodes x with
    | none => exact le_refl _
    | some head =>
      have htc : 0 ≤ cfg.transmitEnergy * cfg.dataSize *
          (1 + 1/10 * calcDist member.position head.position) :=
        transmitCost_nonneg _ _ _ ht hd (hdist _ _)
      have hrc : 0 ≤ cfg.receiveEnergy * cfg.dataSize := mul_nonneg hr hd
      exact le_trans (getD_subA_le _ _ _ _ hrc) (getD_subA_le _ _ _ _ htc)

theorem headToBaseStep_energy_le (calcDist : Position → Position → ℚ)
    (cfg : LEACHConfig) (nodes : List WSNNode)
    (baseStation : Option WSNNode) (members : List (String × List String))
    (ht : 0 ≤ cfg.transmitEnergy) (hd : 0 ≤ cfg.dataSize)
    (hdist : ∀ p q : Position, 0 ≤ calcDist p q)
    (a : CostAcc) (x : String) (b : CostAcc)
    (h : headToBaseStep calcDist cfg nodes baseStation members a x = .ok b) :
    ∀ id : String, getD b.energy id 0 ≤ getD a.energy id 0 := by
  intro id
  unfold headToBaseStep at h
  cases baseStation with
  | none => cases h
  | some bs =>
    cases hh : findNode nodes x with
    | none =>
      rw [hh] at h
      injection h with h2
      subst h2
      exact le_refl _
    | some head =>
      rw [hh] at h
      injection h with h2
      subst h2
      have hagg : 0 ≤ cfg.dataSize *
          (1/2 + 1/2 * ((getD members x []).length : ℚ)) := by
        have hc : (0:ℚ) ≤ ((getD members x []).length : ℚ) :=
          Nat.cast_nonneg _
        have : (0:ℚ) ≤ 1/2 + 1/2 * ((getD members x []).length : ℚ) := by
          linarith
        exact mul_nonneg hd this
      have htc : 0 ≤ cfg.transmitEnergy *
          (cfg.dataSize * (1/2 + 1/2 * ((getD members x []).length : ℚ))) *
          (1 + 2/10 * calcDist head.position bs.position) := by
        have h1 : (0:ℚ) ≤ 1 + 2/10 * calcDist head.position bs.position := by
          have := hdist head.position bs.position
          linarith
        exact mul_nonneg (mul_nonneg ht hagg) h1
      exact getD_subA_le _ _ _ _ htc

/-- Across one executed LEACH round, no node's ledger entry increases
(non-negative constants and distances). -/
theorem leachRoundCore_energy_le (calcDist : Position → Position → ℚ)
    (rng : RandomSource) (cfg : LEACHConfig) (nodes : List WSNNode)
    (round : Nat) (energy : List (String × ℚ))
    (out : List String × List (String × List String) ×
      List (String × ℚ) × List (String × ℚ) × ℚ)
    (ht : 0 ≤ cfg.transmitEnergy) (hr : 0 ≤ cfg.receiveEnergy)
    (hd : 0 ≤ cfg.dataSize)
    (hdist : ∀ p q : Position, 0 ≤ calcDist p q)
    (h : leachRoundCore calcDist rng cfg nodes round energy = .ok out) :
    ∀ id : String, getD out.2.2.2.1 id 0 ≤ getD energy id 0 := by
  intro id
  simp only [leachRoundCore] at h
  cases hhb : headToBase calcDist cfg nodes (findBase nodes)
      (assignMembers calcDist energy nodes
        (leachFallback rng round energy nodes
          (leachElect rng cfg round energy nodes)).1
        (leachFallback rng round energy nodes
          (leachElect rng cfg round energy nodes)).2)
      (leachFallback rng round energy nodes
        (leachElect rng cfg round energy nodes)).1
      (memberToHead calcDist cfg nodes
        (leachFallback rng round energy nodes
          (leachElect rng cfg round energy nodes)).1
        (assignMembers calcDist energy nodes
          (leachFallback rng round energy nodes
            (leachElect rng cfg round energy nodes)).1
          (leachFallback rng round energy nodes
            (leachElect rng cfg round energy nodes)).2)
        ⟨[], energy, 0⟩) with
  | error e => rw [hhb] at h; cases h
  | ok acc2 =>
    rw [hhb] at h
    injection h with h2
    subst h2
    have hstep := foldlM_energy_le _
      (fun a x b hab id2 => headToBaseStep_energy_le calcDist cfg nodes
        (findBase nodes) _ ht hd hdist a x b hab id2)
      _ _ _ hhb id
    have hm2h := memberToHead_energy_le calcDist cfg nodes
      (leachFallback rng round energy nodes
        (leachElect rng cfg round energy nodes)).1
      (assignMembers calcDist energy nodes
        (leachFallback rng round energy nodes
          (leachElect rng cfg round energy nodes)).1
        (leachFallback rng round energy nodes
          (leachElect rng cfg round energy nodes)).2)
      ⟨[], energy, 0⟩ ht hr hd hdist id
    exact le_trans hstep hm2h

theorem leachStep_energy_le (calcDist : Position → Position → ℚ)
    (rng : RandomSource) (cfg : LEACHConfig) (nodes : List WSNNode)
    (round : Nat) (st st2 : LeachState)
    (ht : 0 ≤ cfg.transmitEnergy) (hr : 0 ≤ cfg.receiveEnergy)
    (hd : 0 ≤ cfg.dataSize)
    (hdist : ∀ p q : Position, 0 ≤ calcDist p q)
    (h : leachStep calcDist rng cfg nodes round st = .ok st2) :
    ∀ id : String, getD st2.nodeEnergy id 0 ≤ getD st.nodeEnergy id 0 := by
  intro id
  obtain ⟨r, _, _, _, _, hcore, _⟩ :=
    leachStep_shape calcDist rng cfg nodes round st st2 h
  exact leachRoundCore_energy_le calcDist rng cfg nodes round st.nodeEnergy
    (r.clusterHeads, r.clusterMembers, r.energyUsage, st2.nodeEnergy,
      r.dataTransmitted) ht hr hd hdist hcore id

theorem relayHop_energy_le (calcDist : Position → Position → ℚ)
    (cfg : PEGASISConfig) (nodes : List WSNNode) (acc : CostAcc)
    (senderId receiverId : String)
    (ht : 0 ≤ cfg.transmitEnergy) (hr : 0 ≤ cfg.receiveEnergy)
    (hd : 0 ≤ cfg.dataSize)
    (hdist : ∀ p q : Position, 0 ≤ calcDist p q) :
    ∀ id : String,
      getD (relayHop calcDist cfg nodes acc senderId receiverId).energy
        id 0 ≤ getD acc.energy id 0 := by
  intro id
  unfold relayHop
  split
  · exact le_refl _
  · cases hs : findNode nodes senderId with
    | none => exact le_refl _
    | some sender =>
      cases hr2 : findNode nodes receiverId with
      | none => exact le_refl _
      | some receiver =>
        dsimp only
        have htc : 0 ≤ cfg.transmitEnergy * cfg.dataSize *
            (1 + 1/10 * calcDist sender.position receiver.position) :=
          transmitCost_nonneg _ _ _ ht hd (hdist _ _)
        have hrc : 0 ≤ cfg.receiveEnergy * cfg.dataSize := mul_nonneg hr hd
        split
        · exact getD_subA_le _ _ _ _ htc
        · exact le_trans (getD_subA_le _ _ _ _ hrc)
            (getD_subA_le _ _ _ _ htc)

theorem leaderToBase_energy_le (calcDist : Position → Position → ℚ)
    (cfg : PEGASISConfig) (nodes : List WSNNode)
    (baseStation : Option WSNNode) (leader : Option String) (acc : CostAcc)
    (ht : 0 ≤ cfg.transmitEnergy) (hd : 0 ≤ cfg.dataSize)
    (hdist : ∀ p q : Position, 0 ≤ calcDist p q) :
    ∀ id : String,
      getD (leaderToBase calcDist cfg nodes baseStation leader acc).energy
        id 0 ≤ getD acc.energy id 0 := by
  intro id
  unfold leaderToBase
  cases baseStation with
  | none => exact le_refl _
  | some bs =>
    cases leader with
    | none => exact le_refl _
    | some l =>
      dsimp only
      split
      · cases hl : findNode nodes l with
        | none => exact le_refl _
        | some leaderNode =>
          have htc : 0 ≤ cfg.transmitEnergy * (cfg.dataSize * (8/10)) *
              (1 + 2/10 * calcDist leaderNode.position bs.position) := by
            have h1 : (0:ℚ) ≤ cfg.dataSize * (8/10) := by linarith
            have h2 : (0:ℚ) ≤
                1 + 2/10 * calcDist leaderNode.position bs.position := by
              have := hdist leaderNode.position bs.position
              linarith
            exact mul_nonneg (mul_nonneg ht h1) h2
          exact getD_subA_le _ _ _ _ htc
      · exact le_refl _

/-- Across one executed PEGASIS round, no node's ledger entry increases
(non-negative constants and distances). -/
theorem pegasisRoundCore_energy_le (calcDist : Position → Position → ℚ)
    (cfg : PEGASISConfig) (nodes : List WSNNode) (chain : List String)
    (baseStation : Option WSNNode) (round : Nat)
    (energy : List (String × ℚ))
    (ht : 0 ≤ cfg.transmitEnergy) (hr : 0 ≤ cfg.receiveEnergy)
    (hd : 0 ≤ cfg.dataSize)
    (hdist : ∀ p q : Position, 0 ≤ calcDist p q) :
    ∀ id : String,
      getD (pegasisRoundCore calcDist cfg nodes chain baseStation round
        energy).2.2.1 id 0 ≤ getD energy id 0 := by
  intro id
  simp only [pegasisRoundCore]
  have hhop : ∀ (a : CostAcc) (i : Nat) (j : Nat) (id2 : String),
      getD ((match chain.get? i, chain.get? j with
        | some senderId, some receiverId =>
          relayHop calcDist cfg nodes a senderId receiverId
        | _, _ => a) : CostAcc).energy id2 0 ≤ getD a.energy id2 0 := by
    intro a i j id2
    cases chain.get? i with
    | none => exact le_refl _
    | some senderId =>
      cases chain.get? j with
      | none => exact le_refl _
      | some receiverId =>
        exact relayHop_energy_le calcDist cfg nodes a senderId receiverId
          ht hr hd hdist id2
  refine le_trans (leaderToBase_energy_le calcDist cfg nodes baseStation _ _
    ht hd hdist id) ?_
  refine le_trans (foldl_energy_le _ (fun a x id2 => hhop a x (x - 1) id2)
    _ _ id) ?_
  exact foldl_energy_le _ (fun a x id2 => hhop a x (x + 1) id2) _ _ id

theorem pegasisStep_energy_le (calcDist : Position → Position → ℚ)
    (cfg : PEGASISConfig) (nodes : List WSNNode) (chain : List String)
    (baseStation : Option WSNNode) (round : Nat) (st : PegasisState)
    (ht : 0 ≤ cfg.transmitEnergy) (hr : 0 ≤ cfg.receiveEnergy)
    (hd : 0 ≤ cfg.dataSize)
    (hdist : ∀ p q : Position, 0 ≤ calcDist p q) :
    ∀ id : String,
      getD (pegasisStep calcDist cfg nodes chain baseStation round
        st).nodeEnergy id 0 ≤ getD st.nodeEnergy id 0 := by
  intro id
  obtain ⟨r, _, _, _, _, _, hcore, _⟩ :=
    pegasisStep_shape calcDist cfg nodes chain baseStation round st
  have h := pegasisRoundCore_energy_le calcDist cfg nodes chain baseStation
    round st.nodeEnergy ht hr hd hdist id
  rw [hcore] at h
  exact h

theorem getD_subA_other (m : List (String × ℚ)) (k k2 : String) (c : ℚ)
    (hne : k ≠ k2) : getD (subA m k c) k2 0 = getD m k2 0 :=
  getD_setA_other m k k2 _ 0 hne

/-! ## The fallback election guarantee -/

/-- Whenever some non-base node is still alive and the fallback draw is a
real `Math.random()` value, the head list leaving the fallback step is
non-empty. -/
theorem leachFallback_ne_nil (rng : RandomSource) (round : Nat)
    (energy : List (String × ℚ)) (nodes : List WSNNode)
    (hm : List String × List (String × List String))
    (hwf : RandomSource.WF rng)
    (hlive : ∃ n ∈ nodes, n.type ≠ NodeType.base ∧ 0 < getD energy n.id 0) :
    (leachFallback rng round energy nodes hm).1 ≠ [] := by
  unfold leachFallback
  by_cases h0 : hm.1 = []
  · rw [if_pos h0]
    set availableNodes :=
      (nodes.filter
        (fun n => decide (0 < getD energy n.id 0) &&
          decide (n.type ≠ NodeType.base))).map (fun n => n.id)
      with hav
    obtain ⟨n, hn, hnb, hne⟩ := hlive
    have hmem : n.id ∈ availableNodes := by
      rw [hav]
      exact List.mem_map_of_mem _
        (List.mem_filter.mpr ⟨hn, by simp [hne, hnb]⟩)
    have hpos : 0 < availableNodes.length :=
      List.length_pos.mpr (List.ne_nil_of_mem hmem)
    rw [if_pos hpos]
    have hidx : (Int.floor (rng.fallbackDraw round *
        (availableNodes.length : ℚ))).toNat < availableNodes.length := by
      obtain ⟨hd0, hd1⟩ := hwf round
      have h2 : rng.fallbackDraw round * (availableNodes.length : ℚ) <
          (availableNodes.length : ℚ) := by
        have hl : (0:ℚ) < (availableNodes.length : ℚ) := by
          exact_mod_cast hpos
        nlinarith
      have h3 : Int.floor (rng.fallbackDraw round *
          (availableNodes.length : ℚ)) < (availableNodes.length : ℤ) := by
        rw [Int.floor_lt]
        exact_mod_cast h2
      omega
    have hsome : availableNodes[(Int.floor (rng.fallbackDraw round *
        (availableNodes.length : ℚ))).toNat]? =
        some (availableNodes[(Int.floor (rng.fallbackDraw round *
          (availableNodes.length : ℚ))).toNat]) :=
      List.getElem?_eq_getElem hidx
    simp [hsome]
  · rw [if_neg h0]
    exact h0

/-- A successful LEACH round core reports exactly the head list produced
by election-plus-fallback. -/
theorem leachRoundCore_ok_heads (calcDist : Position → Position → ℚ)
    (rng : RandomSource) (cfg : LEACHConfig) (nodes : List WSNNode)
    (round : Nat) (energy : List (String × ℚ))
    (out : List String × List (String × List String) ×
      List (String × ℚ) × List (String × ℚ) × ℚ)
    (h : leachRoundCore calcDist rng cfg nodes round energy = .ok out) :
    out.1 = (leachFallback rng round energy nodes
      (leachElect rng cfg round energy nodes)).1 := by
  simp only [leachRoundCore] at h
  cases hhb : headToBase calcDist cfg nodes (findBase nodes)
      (assignMembers calcDist energy nodes
        (leachFallback rng round energy nodes
          (leachElect rng cfg round energy nodes)).1
        (leachFallback rng round energy nodes
          (leachElect rng cfg round energy nodes)).2)
      (leachFallback rng round energy nodes
        (leachElect rng cfg round energy nodes)).1
      (memberToHead calcDist cfg nodes
        (leachFallback rng round energy nodes
          (leachElect rng cfg round energy nodes)).1
        (assignMembers calcDist energy nodes
          (leachFallback rng round energy nodes
            (leachElect rng cfg round energy nodes)).1
          (leachFallback rng round energy nodes
            (leachElect rng cfg round energy nodes)).2)
        ⟨[], energy, 0⟩) with
  | error e => rw [hhb] at h; cases h
  | ok acc2 =>
    rw [hhb] at h
    injection h with h2
    subst h2
    rfl

theorem leachLoop_energy_le (calcDist : Position → Position → ℚ)
    (rng : RandomSource) (cfg : LEACHConfig) (nodes : List WSNNode)
    (ht : 0 ≤ cfg.transmitEnergy) (hr : 0 ≤ cfg.receiveEnergy)
    (hd : 0 ≤ cfg.dataSize)
    (hdist : ∀ p q : Position, 0 ≤ calcDist p q) :
    ∀ (n round : Nat) (st st2 : LeachState),
      leachLoop calcDist rng cfg nodes n round st = .ok st2 →
      ∀ id : String, getD st2.nodeEnergy id 0 ≤ getD st.nodeEnergy id 0 := by
  intro n
  induction n with
  | zero =>
    intro round st st2 h id
    rw [leachLoop] at h
    injection h with h2
    subst h2
    exact le_refl _
  | succ n ih =>
    intro round st st2 h id
    rw [leachLoop] at h
    by_cases hdied : st.networkDied = true
    · rw [if_pos hdied] at h
      exact ih (round + 1) st st2 h id
    · rw [if_neg hdied] at h
      cases hstep : leachStep calcDist rng cfg nodes round st with
      | error e => rw [hstep] at h; cases h
      | ok st1 =>
        rw [hstep] at h
        exact le_trans (ih (round + 1) st1 st2 h id)
          (leachStep_energy_le calcDist rng cfg nodes round st st1
            ht hr hd hdist hstep id)

theorem pegasisLoop_energy_le (calcDist : Position → Position → ℚ)
    (cfg : PEGASISConfig) (nodes : List WSNNode) (chain : List String)
    (baseStation : Option WSNNode)
    (ht : 0 ≤ cfg.transmitEnergy) (hr : 0 ≤ cfg.receiveEnergy)
    (hd : 0 ≤ cfg.dataSize)
    (hdist : ∀ p q : Position, 0 ≤ calcDist p q) :
    ∀ (n round : Nat) (st : PegasisState),
      ∀ id : String,
        getD (pegasisLoop calcDist cfg nodes chain baseStation n round
          st).nodeEnergy id 0 ≤ getD st.nodeEnergy id 0 := by
  intro n
  induction n with
  | zero =>
    intro round st id
    rw [pegasisLoop]
  | succ n ih =>
    intro round st id
    rw [pegasisLoop]
    by_cases hdied : st.networkDied = true
    · rw [if_pos hdied]
      exact ih (round + 1) st id
    · rw [if_neg hdied]
      exact le_trans (ih (round + 1) _ id)
        (pegasisStep_energy_le calcDist cfg nodes chain baseStation round st
          ht hr hd hdist id)

theorem getD_foldl_setA_not_mem (e : ℚ) :
    ∀ (xs : List WSNNode) (m : List (String × ℚ)) (k : String),
      k ∉ xs.map (fun n => n.id) →
      getD (xs.foldl (fun m n => setA m n.id e) m) k 0 = getD m k 0 := by
  intro xs
  induction xs with
  | nil =>
    intro m k _
    rw [List.foldl_nil]
  | cons x xs ih =>
    intro m k hnm
    rw [List.map_cons] at hnm
    have h1 : k ∉ xs.map (fun n => n.id) := fun hc => hnm (List.mem_cons_of_mem _ hc)
    have h2 : x.id ≠ k := fun hc => hnm (hc ▸ List.mem_cons_self _ _)
    rw [List.foldl_cons, ih (setA m x.id e) k h1,
      getD_setA_other m x.id k e 0 h2]

/-- Every listed node starts the run with exactly `initialEnergy` in the
ledger. -/
theorem getD_initEnergy (nodes : List WSNNode) (e : ℚ) :
    ∀ k ∈ nodes.map (fun n => n.id), getD (initEnergy nodes e) k 0 = e := by
  have main : ∀ (xs : List WSNNode) (m : List (String × ℚ)),
      ∀ k ∈ xs.map (fun n => n.id),
      getD (xs.foldl (fun m n => setA m n.id e) m) k 0 = e := by
    intro xs
    induction xs with
    | nil =>
      intro m k h
      rw [List.map_nil] at h
      cases h
    | cons x xs ih =>
      intro m k hmem
      rw [List.foldl_cons]
      by_cases hin : k ∈ xs.map (fun n => n.id)
      · exact ih (setA m x.id e) k hin
      · have hx : k = x.id := by
          rw [List.map_cons] at hmem
          rcases List.mem_cons.mp hmem with h | h
          · exact h
          · exact absurd h hin
        rw [hx] at hin ⊢
        rw [getD_foldl_setA_not_mem e xs (setA m x.id e) x.id hin,
          getD_setA_same]
  exact main nodes []

/-! ## Concrete fixtures (all nodes at the origin, so `zeroDist` agrees
with the source's `calculateDistance`) -/

attribute [local semireducible] Rat.mul Rat.add Rat.sub Rat.inv

def bNode : WSNNode := ⟨"b", ⟨0, 0⟩, NodeType.base⟩

def sNode : WSNNode := ⟨"s", ⟨0, 0⟩, NodeType.sensor⟩

def aNode : WSNNode := ⟨"A", ⟨0, 0⟩, NodeType.sensor⟩

def cNode : WSNNode := ⟨"B", ⟨0, 0⟩, NodeType.sensor⟩

/-- Every election draw is `0`: every live non-base node is elected at any
positive threshold. -/
def rngAll : RandomSource := ⟨fun _ _ => 0, fun _ => 0⟩

/-- Every election draw is `3/4`: nobody is elected at threshold `1/2`,
forcing the fallback (whose draw is `0`). -/
def rngNobody : RandomSource := ⟨fun _ _ => 3/4, fun _ => 0⟩

/-- Draws electing exactly node `"A"` at threshold `1/2`. -/
def rngOnlyA : RandomSource :=
  ⟨fun _ k => if k = "A" then 0 else 3/4, fun _ => 0⟩

/-- 1 round, threshold 1/2, E = 1 J, 1 J/bit each way, 1 bit. -/
def cfgL1 : LEACHConfig := ⟨1, 1/2, 1, 1, 1, 1⟩

/-- 1 round, threshold 1/2, E = 10 J (nobody dies). -/
def cfgL10 : LEACHConfig := ⟨1, 1/2, 10, 1, 1, 1⟩

/-- 2 rounds, E = 1/2 J: the lone sensor dies in round 1. -/
def cfgP2 : PEGASISConfig := ⟨2, 1/2, 1, 1, 1, LeaderMethod.roundRobin⟩

/-- 1 round, E = 1/2 J: the lone sensor dies in the final round. -/
def cfgP1 : PEGASISConfig := ⟨1, 1/2, 1, 1, 1, LeaderMethod.roundRobin⟩

/-- 2 rounds, E = 10 J (nobody dies). -/
def cfgP2H : PEGASISConfig := ⟨2, 10, 1, 1, 1, LeaderMethod.roundRobin⟩

/-- 2 rounds, E = 1 J. -/
def cfgPnb : PEGASISConfig := ⟨2, 1, 1, 1, 1, LeaderMethod.roundRobin⟩

/-- Projects the result out of a successful LEACH run. -/
def leachResultOf (e : Except String LEACHSimulationResult) :
    LEACHSimulationResult :=
  match e with
  | .ok r => r
  | .error _ => ⟨[], ⟨0, 0, 0, 0⟩⟩

/-- Projects the state out of a successful LEACH loop step. -/
def leachStateOf (e : Except String LeachState) : LeachState :=
  match e with
  | .ok st => st
  | .error _ => ⟨[], [], 0, 0, false, 0⟩

/-- A healthy one-round LEACH run: 1 base + 1 sensor, E = 10 J. -/
def wLeachRes : LEACHSimulationResult :=
  leachResultOf (simulateLEACH zeroDist rngAll [bNode, aNode] cfgL10)

/-! ## Claims -/

/-- C1, counterexample: with 1 base + 1 sensor at `E = 1/2` and
`roundCount = 2`, the sensor dies in round 1 (leader→base costs `4/5`),
and round 2 is skipped by the `continue` at pegasis.ts:70-72 — the log has
1 entry, not `roundCount = 2`.  No zero-activity round is appended. -/
theorem C1_counterexample :
    ¬((simulatePEGASIS zeroDist [bNode, sNode] cfgP2).rounds.length =
      cfgP2.rounds) := by decide

/-- C1 (amended): for both simulators the rounds log has one entry per
*executed* round, contiguously numbered from 1, and its length equals the
`networkLifetime` metric (which is at most `roundCount`): rounds after the
first node death are skipped entirely, not appended as zero-activity
entries. -/
theorem C1_amended :
    (∀ (calcDist : Position → Position → ℚ) (rng : RandomSource)
      (nodes : List WSNNode) (cfg : LEACHConfig)
      (res : LEACHSimulationResult),
      simulateLEACH calcDist rng nodes cfg = .ok res →
      res.rounds.length = res.metrics.networkLifetime ∧
      res.metrics.networkLifetime ≤ cfg.rounds ∧
      res.rounds.map (fun r => r.roundNumber) =
        List.range' 1 res.rounds.length) ∧
    (∀ (calcDist : Position → Position → ℚ) (nodes : List WSNNode)
      (cfg : PEGASISConfig),
      (simulatePEGASIS calcDist nodes cfg).rounds.length =
        (simulatePEGASIS calcDist nodes cfg).metrics.networkLifetime ∧
      (simulatePEGASIS calcDist nodes cfg).metrics.networkLifetime ≤
        cfg.rounds ∧
      (simulatePEGASIS calcDist nodes cfg).rounds.map
        (fun r => r.roundNumber) =
        List.range' 1 (simulatePEGASIS calcDist nodes cfg).rounds.length) := by
  constructor
  · intro c g n k res h
    obtain ⟨h1, h2, h3, _⟩ := simulateLEACH_ok c g n k res h
    exact ⟨h1, h2, h3⟩
  · intro c n k
    obtain ⟨h1, h2, h3, _⟩ := simulatePEGASIS_props c n k
    exact ⟨h1, h2, h3⟩

/-- C1, witness: the amended statement at two concrete healthy runs. -/
theorem C1_witness :
    wLeachRes.rounds.length = wLeachRes.metrics.networkLifetime ∧
    (simulatePEGASIS zeroDist [bNode, sNode] cfgP2).rounds.length =
      (simulatePEGASIS zeroDist [bNode, sNode]
        cfgP2).metrics.networkLifetime :=
  ⟨(C1_amended.1 zeroDist rngAll [bNode, aNode] cfgL10 wLeachRes
      (by rfl)).1,
   (C1_amended.2 zeroDist [bNode, sNode] cfgP2).1⟩

/-- C2, counterexample: 1 base + 1 sensor, `E = 1/2`, `roundCount = 1`.
The sensor dies in round 1 (`nodesAlive = 1 < 2`), yet
`networkLifetime = 1 = roundCount` — refuting the claimed `iff` (a death
in the final round leaves the metric at `roundCount`). -/
theorem C2_counterexample :
    (simulatePEGASIS zeroDist [bNode, sNode] cfgP1).metrics.networkLifetime =
      cfgP1.rounds ∧
    ∃ r ∈ (simulatePEGASIS zeroDist [bNode, sNode] cfgP1).rounds,
      r.nodesAlive < ([bNode, sNode] : List WSNNode).length := by
  exact ⟨by decide, by decide⟩

/-- C2 (amended): for both simulators `networkLifetime ≤ roundCount`; if
no node ever died during the run the metric equals `roundCount`; and if
the metric is strictly below `roundCount` some recorded round lost a node.
The claimed `iff` fails only when the first death lands exactly in the
final round. -/
theorem C2_amended :
    (∀ (calcDist : Position → Position → ℚ) (rng : RandomSource)
      (nodes : List WSNNode) (cfg : LEACHConfig)
      (res : LEACHSimulationResult),
      simulateLEACH calcDist rng nodes cfg = .ok res →
      res.metrics.networkLifetime ≤ cfg.rounds ∧
      ((∀ r ∈ res.rounds, ¬(r.nodesAlive < nodes.length)) →
        res.metrics.networkLifetime = cfg.rounds) ∧
      (res.metrics.networkLifetime < cfg.rounds →
        ∃ r ∈ res.rounds, r.nodesAlive < nodes.length)) ∧
    (∀ (calcDist : Position → Position → ℚ) (nodes : List WSNNode)
      (cfg : PEGASISConfig),
      (simulatePEGASIS calcDist nodes cfg).metrics.networkLifetime ≤
        cfg.rounds ∧
      ((∀ r ∈ (simulatePEGASIS calcDist nodes cfg).rounds,
          ¬(r.nodesAlive < nodes.length)) →
        (simulatePEGASIS calcDist nodes cfg).metrics.networkLifetime =
          cfg.rounds) ∧
      ((simulatePEGASIS calcDist nodes cfg).metrics.networkLifetime <
          cfg.rounds →
        ∃ r ∈ (simulatePEGASIS calcDist nodes cfg).rounds,
          r.nodesAlive < nodes.length)) := by
  constructor
  · intro c g n k res h
    obtain ⟨_, h2, _, _, h5, h6⟩ := simulateLEACH_ok c g n k res h
    exact ⟨h2, h5, h6⟩
  · intro c n k
    obtain ⟨_, h2, _, _, _, h6, h7⟩ := simulatePEGASIS_props c n k
    exact ⟨h2, h6, h7⟩

/-- C2, witness: healthy runs (no death) reach `networkLifetime =
roundCount` in both simulators. -/
theorem C2_witness :
    wLeachRes.metrics.networkLifetime = cfgL10.rounds ∧
    (simulatePEGASIS zeroDist [bNode, sNode]
      cfgP2H).metrics.networkLifetime = cfgP2H.rounds :=
  ⟨(C2_amended.1 zeroDist rngAll [bNode, aNode] cfgL10 wLeachRes
      (by rfl)).2.1 (by decide),
   (C2_amended.2 zeroDist [bNode, sNode] cfgP2H).2.1 (by decide)⟩

/-- C3, counterexample: a network consisting of only the base station.
Round 1 is recorded with `nodesAlive = 1 > 0` and an *empty* cluster-head
set: the fallback (leach.ts:88-100) can only pick live non-base nodes, so
`nodesAlive > 0` (which counts the never-dying base) does not guarantee a
head.  The claim's condition `nodesAlive > 0` is therefore too weak. -/
theorem C3_counterexample :
    (leachResultOf (simulateLEACH zeroDist rngAll [bNode] cfgL1)).rounds.map
      (fun r => (r.nodesAlive, r.clusterHeads)) = [(1, [])] := by decide

/-- C3 (amended): in every executed LEACH round that *starts with at least
one live non-base node* (and with fallback draws in `Math.random()`s range
`[0,1)`), the recorded cluster-head set is non-empty — the fallback
guarantees a head while any non-base node is alive, but a recorded round
can pair `nodesAlive > 0` with an empty head set when only the base
remains. -/
theorem C3_amended (calcDist : Position → Position → ℚ)
    (rng : RandomSource) (cfg : LEACHConfig) (nodes : List WSNNode)
    (round : Nat) (st st2 : LeachState)
    (hwf : RandomSource.WF rng)
    (hlive : ∃ n ∈ nodes, n.type ≠ NodeType.base ∧
      0 < getD st.nodeEnergy n.id 0)
    (h : leachStep calcDist rng cfg nodes round st = .ok st2) :
    ∃ r, st2.rounds = st.rounds ++ [r] ∧ r.clusterHeads ≠ [] := by
  obtain ⟨r, hrounds, _, _, _, hcore, _⟩ :=
    leachStep_shape calcDist rng cfg nodes round st st2 h
  refine ⟨r, hrounds, ?_⟩
  have hheads : r.clusterHeads =
      (leachFallback rng round st.nodeEnergy nodes
        (leachElect rng cfg round st.nodeEnergy nodes)).1 :=
    leachRoundCore_ok_heads calcDist rng cfg nodes round st.nodeEnergy _
      hcore
  rw [hheads]
  exact leachFallback_ne_nil rng round st.nodeEnergy nodes _ hwf hlive

/-- C3, witness: one base + one sensor, election draws `3/4` (nobody
elected at threshold `1/2`), fallback draw `0` — the fallback elects the
sensor, so the recorded round has a non-empty head set. -/
theorem C3_witness :
    ∃ r, (leachStateOf (leachStep zeroDist rngNobody cfgL1 [bNode, sNode] 1
      (leachInitState [bNode, sNode] cfgL1))).rounds =
      (leachInitState [bNode, sNode] cfgL1).rounds ++ [r] ∧
      r.clusterHeads ≠ [] :=
  C3_amended zeroDist rngNobody cfgL1 [bNode, sNode] 1
    (leachInitState [bNode, sNode] cfgL1)
    (leachStateOf (leachStep zeroDist rngNobody cfgL1 [bNode, sNode] 1
      (leachInitState [bNode, sNode] cfgL1)))
    (fun _ => ⟨by norm_num [rngNobody], by norm_num [rngNobody]⟩)
    ⟨sNode, by decide, by decide, by decide⟩
    (by rfl)

/-- C4, counterexample: 1 base + 2 sensors at one point, `E = 1` J,
election picks exactly head `A` with member `B`.  `B`s transmit (1 J)
kills `B`; `A`s reception (1 J) drives `A` to `0 ≤ 0` — dead mid-round.
The claim says `A` then skips the head→base send, predicting
`energyUsage[A] = 1` and `dataTransmitted = 1`; the code (leach.ts:153-171
has no aliveness check) charges `A` a further 1 J and counts the
aggregated message: usage `[B ↦ 1, A ↦ 2]`, data `2`. -/
theorem C4_counterexample :
    (leachResultOf (simulateLEACH zeroDist rngOnlyA [bNode, aNode, cNode]
      cfgL1)).rounds.map (fun r => (r.energyUsage, r.dataTransmitted)) =
      [([("B", 1), ("A", 2)], 2)] := by decide

/-- C4 (amended): every elected cluster head performs the head→base
transmission *unconditionally* — even one whose remaining energy was
driven to zero or below during the round is charged the full
`transmitEnergy × dataSize × (0.5 + 0.5 × memberCount) × (1 + 0.2 × d)`
cost, and its aggregated message is added to the round's data total. -/
theorem C4_amended (calcDist : Position → Position → ℚ)
    (cfg : LEACHConfig) (nodes : List WSNNode) (bs : WSNNode)
    (members : List (String × List String)) (acc : CostAcc)
    (headId : String) (head : WSNNode)
    (hfind : findNode nodes headId = some head)
    (hdead : getD acc.energy headId 0 ≤ 0) :
    headToBaseStep calcDist cfg nodes (some bs) members acc headId =
      .ok ⟨addA acc.usage headId
          (cfg.transmitEnergy *
            (cfg.dataSize *
              (1/2 + 1/2 * ((getD members headId []).length : ℚ))) *
            (1 + 2/10 * calcDist head.position bs.position)),
        subA acc.energy headId
          (cfg.transmitEnergy *
            (cfg.dataSize *
              (1/2 + 1/2 * ((getD members headId []).length : ℚ))) *
            (1 + 2/10 * calcDist head.position bs.position)),
        acc.data + cfg.dataSize *
          (1/2 + 1/2 * ((getD members headId []).length : ℚ))⟩ := by
  unfold headToBaseStep
  rw [hfind]

/-- C4, witness: a dead head (`energy[A] = 0`) with no members is still
charged the aggregated transmit cost of `1/2` J. -/
theorem C4_witness :
    headToBaseStep zeroDist cfgL1 [bNode, aNode] (some bNode) [("A", [])]
      ⟨[], [("A", 0)], 0⟩ "A" =
      .ok ⟨[("A", 1/2)], [("A", -(1/2))], 1/2⟩ := by
  rw [C4_amended zeroDist cfgL1 [bNode, aNode] bNode [("A", [])]
    ⟨[], [("A", 0)], 0⟩ "A" aNode (by rfl) (by decide)]
  rfl

/-- C5, counterexample: with no base node present, `simulatePEGASIS`
neither fails fast nor errors at all — it runs both requested rounds
(silently skipping leader→base, so zero energy is burned) and returns a
complete result; `simulateLEACH` does not fail before the first round
either but throws a runtime `TypeError` from inside round 1s head→base
step (`nodes.find(...)!.position` on `undefined`). -/
theorem C5_counterexample :
    (simulatePEGASIS zeroDist [sNode] cfgPnb).rounds.length =
      cfgPnb.rounds ∧
    (simulatePEGASIS zeroDist [sNode] cfgPnb).metrics.energyConsumption =
      0 ∧
    simulateLEACH zeroDist rngAll [sNode] cfgL1 =
      .error "TypeError: cannot read position of undefined" :=
  ⟨by decide, by decide, by rfl⟩

/-- C5 (amended): neither simulator validates the base station up front.
With no base, PEGASIS silently skips the leader→base step each round and
returns a full normal result; LEACH throws a runtime `TypeError` (modelled
as `Except.error`) at the first head→base transmission — mid-round, not
before round 1 — and only if some head was elected. -/
theorem C5_amended :
    (∀ (calcDist : Position → Position → ℚ) (cfg : PEGASISConfig)
      (nodes : List WSNNode) (leader : Option String) (acc : CostAcc),
      leaderToBase calcDist cfg nodes none leader acc = acc) ∧
    (∀ (calcDist : Position → Position → ℚ) (cfg : LEACHConfig)
      (nodes : List WSNNode) (members : List (String × List String))
      (heads : List String) (acc : CostAcc),
      heads ≠ [] →
      headToBase calcDist cfg nodes none members heads acc =
        .error "TypeError: cannot read position of undefined") := by
  constructor
  · intro c k n leader acc
    cases leader <;> rfl
  · intro c k n members heads acc hne
    cases heads with
    | nil => exact absurd rfl hne
    | cons h t => rfl

/-- C5, witness: the amended statement at concrete inputs. -/
theorem C5_witness :
    leaderToBase zeroDist cfgPnb [sNode] none (some "s")
      ⟨[], [("s", 1)], 0⟩ = ⟨[], [("s", 1)], 0⟩ ∧
    headToBase zeroDist cfgL1 [sNode] none [] ["s"] ⟨[], [("s", 1)], 0⟩ =
      .error "TypeError: cannot read position of undefined" :=
  ⟨C5_amended.1 zeroDist cfgPnb [sNode] (some "s") ⟨[], [("s", 1)], 0⟩,
   C5_amended.2 zeroDist cfgL1 [sNode] [] ["s"] ⟨[], [("s", 1)], 0⟩
     (by decide)⟩

/-- C6: the PEGASIS chain is a permutation of the sensor (non-base) node
ids — hence, under the data models id-uniqueness, it contains every
sensor id exactly once; it is built once before the loop, and every
recorded rounds chain snapshot equals that single chain. -/
theorem C6_theorem (calcDist : Position → Position → ℚ)
    (nodes : List WSNNode) (cfg : PEGASISConfig) :
    (constructGreedyChain calcDist (sensorNodesOf nodes)).Perm
      ((sensorNodesOf nodes).map (fun n => n.id)) ∧
    (((sensorNodesOf nodes).map (fun n => n.id)).Nodup →
      ∀ k ∈ (sensorNodesOf nodes).map (fun n => n.id),
        (constructGreedyChain calcDist (sensorNodesOf nodes)).count k = 1) ∧
    (∀ r ∈ (simulatePEGASIS calcDist nodes cfg).rounds,
      r.chain = constructGreedyChain calcDist (sensorNodesOf nodes)) := by
  refine ⟨constructGreedyChain_perm calcDist _, ?_, ?_⟩
  · intro hnd k hk
    rw [(constructGreedyChain_perm calcDist (sensorNodesOf nodes)).count_eq
      k]
    exact List.count_eq_one_of_mem hnd hk
  · exact (simulatePEGASIS_props calcDist nodes cfg).2.2.2.2.1

/-- C6, witness: in a 1-base + 2-sensor network the chain holds `"s"`
exactly once. -/
theorem C6_witness :
    (constructGreedyChain zeroDist
      (sensorNodesOf [bNode, sNode, aNode])).count "s" = 1 :=
  (C6_theorem zeroDist [bNode, sNode, aNode] cfgP2H).2.1 (by decide) "s"
    (by decide)

/-- C7: one relay hop (both chain directions use this exact code,
pegasis.ts:100-127 and 129-156).  A dead sender is skipped outright — no
cost on either endpoint, no data.  A live sender with a dead receiver
pays its full distance-scaled transmit cost while the receive cost and
the data increment are skipped. -/
theorem C7_theorem (calcDist : Position → Position → ℚ)
    (cfg : PEGASISConfig) (nodes : List WSNNode) (acc : CostAcc)
    (senderId receiverId : String) :
    (getD acc.energy senderId 0 ≤ 0 →
      relayHop calcDist cfg nodes acc senderId receiverId = acc) ∧
    (∀ sender receiver : WSNNode,
      findNode nodes senderId = some sender →
      findNode nodes receiverId = some receiver →
      senderId ≠ receiverId →
      0 < getD acc.energy senderId 0 →
      getD acc.energy receiverId 0 ≤ 0 →
      relayHop calcDist cfg nodes acc senderId receiverId =
        ⟨addA acc.usage senderId
            (cfg.transmitEnergy * cfg.dataSize *
              (1 + 1/10 * calcDist sender.position receiver.position)),
          subA acc.energy senderId
            (cfg.transmitEnergy * cfg.dataSize *
              (1 + 1/10 * calcDist sender.position receiver.position)),
          acc.data⟩) := by
  constructor
  · intro hdead
    unfold relayHop
    rw [if_pos hdead]
  · intro sender receiver hs hr2 hne hpos hrdead
    unfold relayHop
    rw [if_neg (not_le.mpr hpos), hs, hr2]
    dsimp only
    rw [if_pos (by rw [getD_subA_other _ _ _ _ hne]; exact hrdead)]

/-- C7, witness: both hop behaviours at concrete states (dead sender
`A`; then live `A`, dead `B`). -/
theorem C7_witness :
    relayHop zeroDist cfgPnb [aNode, cNode] ⟨[], [("A", 0), ("B", 1)], 5⟩
      "A" "B" = ⟨[], [("A", 0), ("B", 1)], 5⟩ ∧
    relayHop zeroDist cfgPnb [aNode, cNode] ⟨[], [("A", 1), ("B", 0)], 5⟩
      "A" "B" = ⟨[("A", 1)], [("A", 0), ("B", 0)], 5⟩ := by
  constructor
  · exact (C7_theorem zeroDist cfgPnb [aNode, cNode]
      ⟨[], [("A", 0), ("B", 1)], 5⟩ "A" "B").1 (by decide)
  · rw [(C7_theorem zeroDist cfgPnb [aNode, cNode]
      ⟨[], [("A", 1), ("B", 0)], 5⟩ "A" "B").2 aNode cNode (by rfl)
      (by rfl) (by decide) (by decide) (by decide)]
    rfl

/-- C8: with non-negative energy constants, data size, and distances
(the source's `calculateDistance` is a square root, hence non-negative),
no nodes ledger entry ever increases: across any run segment of either
simulators round loop the ledger is pointwise non-increasing, and every
listed node starts at exactly `initialEnergy`. -/
theorem C8_theorem :
    (∀ (calcDist : Position → Position → ℚ) (rng : RandomSource)
      (cfg : LEACHConfig) (nodes : List WSNNode) (n round : Nat)
      (st st2 : LeachState),
      0 ≤ cfg.transmitEnergy → 0 ≤ cfg.receiveEnergy → 0 ≤ cfg.dataSize →
      (∀ p q : Position, 0 ≤ calcDist p q) →
      leachLoop calcDist rng cfg nodes n round st = .ok st2 →
      ∀ k : String, getD st2.nodeEnergy k 0 ≤ getD st.nodeEnergy k 0) ∧
    (∀ (calcDist : Position → Position → ℚ) (cfg : PEGASISConfig)
      (nodes : List WSNNode) (chain : List String)
      (baseStation : Option WSNNode) (n round : Nat) (st : PegasisState),
      0 ≤ cfg.transmitEnergy → 0 ≤ cfg.receiveEnergy → 0 ≤ cfg.dataSize →
      (∀ p q : Position, 0 ≤ calcDist p q) →
      ∀ k : String,
        getD (pegasisLoop calcDist cfg nodes chain baseStation n round
          st).nodeEnergy k 0 ≤ getD st.nodeEnergy k 0) ∧
    (∀ (nodes : List WSNNode) (e : ℚ), ∀ k ∈ nodes.map (fun n => n.id),
      getD (initEnergy nodes e) k 0 = e) := by
  refine ⟨?_, ?_, ?_⟩
  · intro c g k n nn round st st2 ht hr hd hdist h
    exact leachLoop_energy_le c g k n ht hr hd hdist nn round st st2 h
  · intro c k n chain baseStation nn round st ht hr hd hdist
    exact pegasisLoop_energy_le c k n chain baseStation ht hr hd hdist nn
      round st
  · exact getD_initEnergy

/-- C8, witness: the ledger transitions at concrete runs, plus the
initial-ledger value. -/
theorem C8_witness :
    getD (leachStateOf (leachLoop zeroDist rngAll cfgL1
      [bNode, aNode, cNode] 1 1
      (leachInitState [bNode, aNode, cNode] cfgL1))).nodeEnergy "A" 0 ≤
      getD (leachInitState [bNode, aNode, cNode] cfgL1).nodeEnergy "A" 0 ∧
    getD (pegasisLoop zeroDist cfgPnb [bNode, sNode] ["s"] (some bNode) 1 1
      (pegasisInitState [bNode, sNode] cfgPnb)).nodeEnergy "s" 0 ≤
      getD (pegasisInitState [bNode, sNode] cfgPnb).nodeEnergy "s" 0 ∧
    getD (initEnergy [bNode, sNode] (2 : ℚ)) "s" 0 = 2 :=
  ⟨C8_theorem.1 zeroDist rngAll cfgL1 [bNode, aNode, cNode] 1 1
      (leachInitState [bNode, aNode, cNode] cfgL1)
      (leachStateOf (leachLoop zeroDist rngAll cfgL1 [bNode, aNode, cNode]
        1 1 (leachInitState [bNode, aNode, cNode] cfgL1)))
      (by decide) (by decide) (by decide) (fun _ _ => le_refl 0)
      (by rfl) "A",
   C8_theorem.2.1 zeroDist cfgPnb [bNode, sNode] ["s"] (some bNode) 1 1
      (pegasisInitState [bNode, sNode] cfgPnb)
      (by decide) (by decide) (by decide) (fun _ _ => le_refl 0) "s",
   C8_theorem.2.2 [bNode, sNode] 2 "s" (by decide)⟩

/-- C9: for both simulators the energy-consumption metric is exactly the
sum over the recorded rounds of the sums of that rounds per-node
`energyUsage` values — exact reconciliation, no double counting. -/
theorem C9_theorem :
    (∀ (calcDist : Position → Position → ℚ) (rng : RandomSource)
      (nodes : List WSNNode) (cfg : LEACHConfig)
      (res : LEACHSimulationResult),
      simulateLEACH calcDist rng nodes cfg = .ok res →
      res.metrics.energyConsumption =
        (res.rounds.map (fun r => sumVals r.energyUsage)).sum) ∧
    (∀ (calcDist : Position → Position → ℚ) (nodes : List WSNNode)
      (cfg : PEGASISConfig),
      (simulatePEGASIS calcDist nodes cfg).metrics.energyConsumption =
        ((simulatePEGASIS calcDist nodes cfg).rounds.map
          (fun r => sumVals r.energyUsage)).sum) :=
  ⟨fun c g n k res h => (simulateLEACH_ok c g n k res h).2.2.2.1,
   fun c n k => (simulatePEGASIS_props c n k).2.2.2.1⟩

/-- C9, witness: the reconciliation at two concrete runs. -/
theorem C9_witness :
    wLeachRes.metrics.energyConsumption =
      (wLeachRes.rounds.map (fun r => sumVals r.energyUsage)).sum ∧
    (simulatePEGASIS zeroDist [bNode, sNode] cfgP2).metrics.energyConsumption =
      ((simulatePEGASIS zeroDist [bNode, sNode] cfgP2).rounds.map
        (fun r => sumVals r.energyUsage)).sum :=
  ⟨C9_theorem.1 zeroDist rngAll [bNode, aNode] cfgL10 wLeachRes (by rfl),
   C9_theorem.2 zeroDist [bNode, sNode] cfgP2⟩

/-- C10: `simulatePEGASIS` is deterministic — its embedding consults no
random source (unlike `simulateLEACH`, which takes a `RandomSource` for
its `Math.random()` calls): equal node lists and configs give equal
results; and despite the sources "start with a random node" comment, the
chain deterministically starts with the *first* sensor node in input
order (`nodesCopy.shift()`). -/
theorem C10_theorem :
    (∀ (calcDist : Position → Position → ℚ)
      (nodes1 nodes2 : List WSNNode) (cfg1 cfg2 : PEGASISConfig),
      nodes1 = nodes2 → cfg1 = cfg2 →
      simulatePEGASIS calcDist nodes1 cfg1 =
        simulatePEGASIS calcDist nodes2 cfg2) ∧
    (∀ (calcDist : Position → Position → ℚ) (nodes : List WSNNode)
      (n : WSNNode) (rest : List WSNNode),
      sensorNodesOf nodes = n :: rest →
      (constructGreedyChain calcDist (sensorNodesOf nodes)).head? =
        some n.id) := by
  constructor
  · intro c n1 n2 k1 k2 h1 h2
    rw [h1, h2]
  · intro c nodes n rest h
    rw [h]
    exact constructGreedyChain_head c n rest

/-- C10, witness: two identical calls agree, and the chain of
`[base, s, A]` starts with `"s"`, the first sensor in input order. -/
theorem C10_witness :
    simulatePEGASIS zeroDist [bNode, sNode] cfgP2 =
      simulatePEGASIS zeroDist [bNode, sNode] cfgP2 ∧
    (constructGreedyChain zeroDist
      (sensorNodesOf [bNode, sNode, aNode])).head? = some sNode.id :=
  ⟨C10_theorem.1 zeroDist [bNode, sNode] [bNode, sNode] cfgP2 cfgP2 rfl
    rfl,
   C10_theorem.2 zeroDist [bNode, sNode, aNode] sNode [aNode] (by rfl)⟩
